import Mathlib

/-!
Verification development for `src/main.c` of guest-vm-sync-time-rtc.

The daemon samples the hardware clock once per minute, compares two consecutive
samples (`check_rtc_jumped`) and, when the elapsed RTC time is outside a band
around the nominal period, sets the system clock from the RTC
(`update_system_time`).

The C functions are embedded as Lean functions of the same name.  Everything the
operating system decides (whether `open` succeeds, what `ioctl` stores, whether
`clock_settime` succeeds) is an explicit environment argument; output lines and
the calls the properties speak about are recorded in an event log.
-/

namespace RtcSync

/-! ## Calendar samples -/

/-- The kernel's `struct rtc_time` (`<linux/rtc.h>`): nine `int` fields. -/
structure rtc_time where
  tm_sec : Int
  tm_min : Int
  tm_hour : Int
  tm_mday : Int
  tm_mon : Int
  tm_year : Int
  tm_wday : Int
  tm_yday : Int
  tm_isdst : Int
deriving DecidableEq, Repr

/-- The C library's `struct tm`, restricted to the nine fields the program assigns
(the remaining fields are zero-initialised by `= {0}` and never read). -/
structure tm where
  tm_sec : Int
  tm_min : Int
  tm_hour : Int
  tm_mday : Int
  tm_mon : Int
  tm_year : Int
  tm_wday : Int
  tm_yday : Int
  tm_isdst : Int
deriving DecidableEq, Repr

/-- Field-by-field copy, `rtc_to_tm` of `main.c`. -/
def rtc_to_tm (r : rtc_time) : tm :=
  { tm_sec := r.tm_sec
    tm_min := r.tm_min
    tm_hour := r.tm_hour
    tm_mday := r.tm_mday
    tm_mon := r.tm_mon
    tm_year := r.tm_year
    tm_wday := r.tm_wday
    tm_yday := r.tm_yday
    tm_isdst := r.tm_isdst }

/-- Field-by-field copy, `tm_to_rtc` of `main.c`. -/
def tm_to_rtc (t : tm) : rtc_time :=
  { tm_sec := t.tm_sec
    tm_min := t.tm_min
    tm_hour := t.tm_hour
    tm_mday := t.tm_mday
    tm_mon := t.tm_mon
    tm_year := t.tm_year
    tm_wday := t.tm_wday
    tm_yday := t.tm_yday
    tm_isdst := t.tm_isdst }

/-! ## The C library's `timegm`

`timegm` is not part of the repository.  It is modelled by the POSIX
"seconds since the Epoch" formula applied to the broken-down time read as UTC,
with the month normalised into `0..11` first (as glibc and musl do).  Like the
library function it reads the year, month, day, hour, minute and second and
nothing else: `tm_wday` and `tm_yday` are outputs of the library call and glibc
overwrites `tm_isdst` with `0` before converting.  Like the library function it
fails, returning `-1` (with `errno = EOVERFLOW`), when the year of the normalised
time does not fit the `int` field `tm_year`, i.e. lies outside
`1900 - 2^31 .. 1900 + 2^31 - 1`; `main.c` uses the returned value unchecked. -/

/-- Gregorian leap-year test on a full year number. -/
def is_leap (y : Int) : Bool :=
  (y % 4 == 0 && y % 100 != 0) || y % 400 == 0

/-- Days between 1 January 1970 and 1 January of year `y` (negative before 1970). -/
def days_to_year (y : Int) : Int :=
  365 * (y - 1970) + (y - 1969) / 4 - (y - 1901) / 100 + (y - 1601) / 400

/-- Days between 1 January and the first day of month `m` (`0..11`) in a common
year. -/
def days_before_month (m : Int) : Int :=
  if m = 0 then 0 else if m = 1 then 31 else if m = 2 then 59
  else if m = 3 then 90 else if m = 4 then 120 else if m = 5 then 151
  else if m = 6 then 181 else if m = 7 then 212 else if m = 8 then 243
  else if m = 9 then 273 else if m = 10 then 304 else 334

/-- Days between 1 January and the first day of month `m` (`0..11`). -/
def days_to_month (leap : Bool) (m : Int) : Int :=
  if leap && 2 ≤ m then days_before_month m + 1 else days_before_month m

/-- Seconds since 1970-01-01T00:00:00Z of the calendar fields read as UTC,
out-of-range fields being carried into the next larger unit. -/
def epoch_seconds (t : tm) : Int :=
  let year := 1900 + t.tm_year + t.tm_mon / 12
  let mon := t.tm_mon % 12
  let days := days_to_year year + days_to_month (is_leap year) mon + (t.tm_mday - 1)
  days * 86400 + t.tm_hour * 3600 + t.tm_min * 60 + t.tm_sec

/-- First second of the year `1900 - 2^31`, the earliest year `tm_year` can hold. -/
def TIMEGM_MIN : Int := days_to_year (1900 - 2 ^ 31) * 86400

/-- Last second of the year `1900 + 2^31 - 1`, the latest year `tm_year` can hold. -/
def TIMEGM_MAX : Int := days_to_year (1900 + 2 ^ 31) * 86400 - 1

/-- Model of `timegm`: the epoch value of the calendar fields if the normalised
time lies in a year that `tm_year` can hold, else the error value `-1`. -/
def timegm (t : tm) : Int :=
  let secs := epoch_seconds t
  if TIMEGM_MIN ≤ secs ∧ secs ≤ TIMEGM_MAX then secs else -1

/-! ## IEEE-754 binary64 arithmetic as used by `check_rtc_jumped`

The comparison `diff < expected * 0.9 - 1 || diff > expected * 1.1 + 1` is
evaluated in `double`.  Every value that occurs there (a converted 64-bit
integer, the constants `0.9`, `1.0`, `1.1`, a product of a converted integer
with a constant, such a product plus or minus one) is an integer multiple of
`2^-53`, and of magnitude far below the overflow threshold.  A `double` is
therefore represented by its numerator over `2^53`, and each operation is the
exact result followed by rounding to nearest, ties to even (strict binary64
evaluation: every operation is rounded separately, without excess precision and
without fused multiply-add). -/

/-- The scale: a double `x` is represented by the integer `x * 2^53`. -/
def SCALE : Int := 2 ^ 53

/-- Number of low-order bits of `a` beyond the 53 that a binary64 significand
holds: the least `k` with `a / 2^k < 2^53` (`fuel` bounds the search; `fuel = a`
always suffices). -/
def excess_bits : Nat → Nat → Nat
  | 0, _ => 0
  | fuel + 1, a => if a < 2 ^ 53 then 0 else excess_bits fuel (a / 2) + 1

/-- Round the non-negative value `a / 2^53` to 53 significant bits, ties to even.
`sh` is the number of low bits that do not fit, `q` the kept bits and `r` the
dropped ones. -/
def roundNat (a : Nat) : Nat :=
  let sh := excess_bits a a
  let q := a / 2 ^ sh
  let r := a % 2 ^ sh
  if 2 * r < 2 ^ sh then q * 2 ^ sh
  else if 2 * r = 2 ^ sh then (if q % 2 = 0 then q else q + 1) * 2 ^ sh
  else (q + 1) * 2 ^ sh

/-- Round to nearest binary64, ties to even (sign-symmetric). -/
def roundNE (n : Int) : Int :=
  if n < 0 then -((roundNat n.natAbs : Nat) : Int) else ((roundNat n.natAbs : Nat) : Int)

/-- Conversion of a 64-bit integer to `double`. -/
def int64_to_double (x : Int) : Int := roundNE (x * SCALE)

/-- The literal `0.9`, i.e. `0x1.ccccccccccccdp-1`. -/
def D_0_9 : Int := 8106479329266893

/-- The literal `1.1`, i.e. `0x1.199999999999ap+0`. -/
def D_1_1 : Int := 9907919180215092

/-- The value `1.0` (the `int` constant `1` converted for the subtraction/addition). -/
def D_1 : Int := SCALE

/-- Product of two doubles.  The exact product has numerator `a * b / 2^53`; the
division is exact whenever one factor is an integer, which is the case for both
products in `check_rtc_jumped`. -/
def dmul (a b : Int) : Int := roundNE (a * b / SCALE)

/-- Sum of two doubles. -/
def dadd (a b : Int) : Int := roundNE (a + b)

/-- Difference of two doubles. -/
def dsub (a b : Int) : Int := roundNE (a - b)

/-! ## The jump detector -/

/-- The nominal sampling period. -/
def RTC_CHECK_PERIOD_SEC : Int := 60

/-- The local `diff` of `check_rtc_jumped`:
`timegm(&current_tm) - timegm(&previous_tm)`. -/
def rtc_diff (previous_rtc_time current_rtc_time : rtc_time) : Int :=
  timegm (rtc_to_tm current_rtc_time) - timegm (rtc_to_tm previous_rtc_time)

/-- The condition of the `if` in `check_rtc_jumped`, in binary64 arithmetic. -/
def jump_condition (diff expected_seconds_elapsed : Int) : Bool :=
  decide (int64_to_double diff
      < dsub (dmul (int64_to_double expected_seconds_elapsed) D_0_9) D_1)
  || decide (int64_to_double diff
      > dadd (dmul (int64_to_double expected_seconds_elapsed) D_1_1) D_1)


/-! ## Operating-system environment, event log, outcomes -/

/-- An `errno` value.  POSIX error numbers are positive. -/
structure Errno where
  val : Int
  pos : 0 < val

/-- A caller-owned `struct rtc_time` variable together with a ghost label:
`writer` is the index of the `read_rtc` call whose `ioctl` stored `val`
(`none`: never written, the C variable is still uninitialised).  The label is
never inspected by the program. -/
structure Slot where
  val : rtc_time
  writer : Option Nat
deriving DecidableEq

/-- Lines written to stdout/stderr, and markers for the calls the properties
speak about. -/
inductive Event where
  /-- The two startup lines of `main`. -/
  | banner
  /-- "Can't open /dev/rtc: ...(errno)". -/
  | err_open (e : Int)
  /-- "Can't read time from /dev/rtc, ioctl(RTC_RD_TIME) failed: ...(errno)". -/
  | err_ioctl (e : Int)
  /-- "RTC time jumped of diff seconds instead of expected, syncing ...". -/
  | rtc_jumped (diff expected : Int)
  /-- "Changing system time from old to new" (both printed as unsigned 64-bit). -/
  | changing_time (old new : Int)
  /-- "Not updating system time to avoid going backward in the past". -/
  | not_updating
  /-- "Can't set time, clock_settime failed: ...(errno)". -/
  | err_settime (e : Int)
  /-- "Failed to read /dev/rtc, skipping rtc jump check". -/
  | skipping
  /-- Marker: `main` calls `check_rtc_jumped` on these two variables. -/
  | call_check_rtc_jumped (previous current : Slot) (expected : Int)
  /-- Marker: `main` calls `update_system_time`. -/
  | call_update_system_time
  /-- Marker: `clock_settime(CLOCK_REALTIME, {tv_sec, 0})` is issued. -/
  | call_clock_settime (tv_sec : Int)
deriving DecidableEq

/-- How a call ends: it returns a value, or the process is terminated by
`exit(code)`.  Either way `log` holds what was printed meanwhile. -/
inductive Outcome (α : Type) where
  | ret (value : α) (log : List Event)
  | exited (code : Int) (log : List Event)

/-- The log of an outcome. -/
def Outcome.log {α : Type} : Outcome α → List Event
  | .ret _ l => l
  | .exited _ l => l

/-- Result of `open(RTC_DEV_PATH, O_RDONLY)`. -/
inductive OpenResult where
  | ok
  | failed (e : Errno)

/-- Result of `ioctl(rtc_fd, RTC_RD_TIME, &t)`: on success the kernel stores `t`. -/
inductive IoctlResult where
  | ok (t : rtc_time)
  | failed (e : Errno)

/-- What one open-and-query of the RTC device meets. -/
structure RtcEnv where
  open_result : OpenResult
  ioctl_result : IoctlResult

/-! ## `read_rtc` -/

/-- `read_rtc(&out)`.  Returns the status and the contents of `*out` afterwards;
`tag` is the ghost index of this call. -/
def read_rtc (env : RtcEnv) (tag : Nat) (out : Slot) : Outcome (Int × Slot) :=
  match env.open_result with
  | .failed e => .ret (e.val, out) [.err_open e.val]
  | .ok =>
    match env.ioctl_result with
    | .failed e => .exited 1 [.err_ioctl e.val]
    | .ok t => .ret (0, { val := t, writer := some tag }) []

/-! ## `check_rtc_jumped` -/

/-- `check_rtc_jumped(&previous, &current, expected)`: the returned `int` and the
line printed.  The subtraction is exact in `int64_t`: `timegm` returns values of
magnitude below `2^57` (`rtc_diff_fits_int64`). -/
def check_rtc_jumped (previous_rtc_time current_rtc_time : rtc_time)
    (expected_seconds_elapsed : Int) : Int × List Event :=
  let previous_tm := rtc_to_tm previous_rtc_time
  let current_tm := rtc_to_tm current_rtc_time
  let previous_time_t := timegm previous_tm
  let current_time_t := timegm current_tm
  let diff := current_time_t - previous_time_t
  if jump_condition diff expected_seconds_elapsed then
    (1, [.rtc_jumped diff expected_seconds_elapsed])
  else
    (0, [])

/-! ## `update_system_time` -/

/-- What `update_system_time` meets: the RTC device, and the result of
`clock_settime` should it be called (`none`: success, `some e`: failure). -/
structure SyncEnv where
  rtc : RtcEnv
  settime_error : Option Errno

/-- Reduction of an integer to the range of a signed 64-bit `time_t`
(two's-complement wrap-around). -/
def wrap64 (x : Int) : Int := (x + 2 ^ 63) % 2 ^ 64 - 2 ^ 63

/-- `update_system_time()`, run when the system clock (`time(NULL)`) reads
`sys_time`.  Returns the value of the system clock afterwards.  The sum
`time(NULL) + 2` of the guard is computed in 64-bit `time_t` and wraps around on
overflow, as the compiled code does.  The blocking one-byte `read` has no effect
on the modelled state; the passage of time while the function runs is not
modelled. -/
def update_system_time (env : SyncEnv) (sys_time : Int) : Outcome Int :=
  match env.rtc.open_result with
  | .failed e => .ret sys_time [.err_open e.val]
  | .ok =>
    match env.rtc.ioctl_result with
    | .failed e => .exited 1 [.err_ioctl e.val]
    | .ok rtc_time =>
      let current_tm := rtc_to_tm rtc_time
      let tv_sec := timegm current_tm
      let printed := Event.changing_time (sys_time % 2 ^ 64) (tv_sec % 2 ^ 64)
      if wrap64 (sys_time + 2) ≥ tv_sec then
        .ret sys_time [printed, .not_updating]
      else
        match env.settime_error with
        | none => .ret tv_sec [printed, .call_clock_settime tv_sec]
        | some e => .ret sys_time [printed, .call_clock_settime tv_sec, .err_settime e.val]

/-! ## `main` -/

/-- The locals of `main`, and the system clock. -/
structure MainState where
  previous_rtc_time : Slot
  current_rtc_time : Slot
  previous_result : Int
  result : Int
  sys_time : Int

/-- What one iteration of the `while(1)` loop meets. -/
structure CycleEnv where
  /-- By how much the system clock moves during `sleep(60)`. -/
  clock_advance : Int
  /-- The device as met by this iteration's `read_rtc`. -/
  read : RtcEnv
  /-- The device and `clock_settime` as met by `update_system_time`, if called. -/
  sync : SyncEnv

/-- The indeterminate contents of `main`'s locals before their first assignment,
and the system clock at startup. -/
structure Startup where
  previous_rtc_time : rtc_time
  current_rtc_time : rtc_time
  previous_result : Int
  sys_time : Int

/-- The part of `main` before the loop: banner, then the first `read_rtc`
(call index `0`). -/
def main_init (env : RtcEnv) (u : Startup) : Outcome MainState :=
  match read_rtc env 0 { val := u.current_rtc_time, writer := none } with
  | .exited c log => .exited c (.banner :: log)
  | .ret (result, current) log =>
    .ret { previous_rtc_time := { val := u.previous_rtc_time, writer := none }
           current_rtc_time := current
           previous_result := u.previous_result
           result := result
           sys_time := u.sys_time } (.banner :: log)

/-- One iteration of the `while(1)` loop; `k` is the index of its `read_rtc` call. -/
def main_cycle (k : Nat) (env : CycleEnv) (st : MainState) : Outcome MainState :=
  let sys_time := st.sys_time + env.clock_advance
  let previous_result := st.result
  let previous_rtc_time := st.current_rtc_time
  match read_rtc env.read k st.current_rtc_time with
  | .exited c log => .exited c log
  | .ret (result, current_rtc_time) log =>
    let st1 : MainState :=
      { previous_rtc_time := previous_rtc_time
        current_rtc_time := current_rtc_time
        previous_result := previous_result
        result := result
        sys_time := sys_time }
    if result ≠ 0 ∨ previous_result ≠ 0 then
      .ret st1 (log ++ [.skipping])
    else
      let checked :=
        check_rtc_jumped previous_rtc_time.val current_rtc_time.val RTC_CHECK_PERIOD_SEC
      let log1 := log
        ++ [.call_check_rtc_jumped previous_rtc_time current_rtc_time RTC_CHECK_PERIOD_SEC]
        ++ checked.2
      if checked.1 ≠ 0 then
        match update_system_time env.sync sys_time with
        | .exited c log2 => .exited c (log1 ++ [.call_update_system_time] ++ log2)
        | .ret sys_time1 log2 =>
          .ret { st1 with sys_time := sys_time1 } (log1 ++ [.call_update_system_time] ++ log2)
      else
        .ret st1 log1

/-- The loop, run over the environments of its first iterations: the outcome of
each iteration that is reached, in order (the list ends early only when an
iteration terminates the process).  `k` is the index of the first iteration. -/
def main_loop : Nat → List CycleEnv → MainState → List (Outcome MainState)
  | _, [], _ => []
  | k, env :: rest, st =>
    match main_cycle k env st with
    | .ret st1 log => .ret st1 log :: main_loop (k + 1) rest st1
    | .exited c log => [.exited c log]

/-- The program: the startup part, then the loop (iterations are numbered from 1,
iteration `k` performing `read_rtc` call `k`). -/
def main (env0 : RtcEnv) (u : Startup) (envs : List CycleEnv) :
    Outcome MainState × List (Outcome MainState) :=
  match main_init env0 u with
  | .exited c log => (.exited c log, [])
  | .ret st log => (.ret st log, main_loop 1 envs st)

/-! ## Notions used to state the properties -/

/-- The band of the specification in exact rational arithmetic:
`0.9 * E - 1 ≤ diff ≤ 1.1 * E + 1`. -/
def in_band (diff E : Int) : Prop :=
  (9 / 10 : ℚ) * (E : ℚ) - 1 ≤ (diff : ℚ) ∧ (diff : ℚ) ≤ (11 / 10 : ℚ) * (E : ℚ) + 1

instance (diff E : Int) : Decidable (in_band diff E) := by
  unfold in_band; infer_instance

/-- The conversion of a sample succeeds: its normalised time lies in a year that
`tm_year` can hold, so `timegm` returns its epoch value. -/
def converts (r : rtc_time) : Prop :=
  TIMEGM_MIN ≤ epoch_seconds (rtc_to_tm r) ∧ epoch_seconds (rtc_to_tm r) ≤ TIMEGM_MAX

instance (r : rtc_time) : Decidable (converts r) := by
  unfold converts; infer_instance

/-- The elapsed time of the specification: `epoch(current) - epoch(previous)`,
both samples read as UTC calendar times. -/
def epoch_diff (previous current : rtc_time) : Int :=
  epoch_seconds (rtc_to_tm current) - epoch_seconds (rtc_to_tm previous)

/-- The six calendar fields of a sample: year, month, day, hour, minute, second. -/
def calendar_fields (r : rtc_time) : Int × Int × Int × Int × Int × Int :=
  (r.tm_year, r.tm_mon, r.tm_mday, r.tm_hour, r.tm_min, r.tm_sec)

/-- Every field that `timegm` reads is a 32-bit C `int`. -/
def int_fields (r : rtc_time) : Prop :=
  (-2 ^ 31 ≤ r.tm_sec ∧ r.tm_sec < 2 ^ 31) ∧ (-2 ^ 31 ≤ r.tm_min ∧ r.tm_min < 2 ^ 31) ∧
  (-2 ^ 31 ≤ r.tm_hour ∧ r.tm_hour < 2 ^ 31) ∧ (-2 ^ 31 ≤ r.tm_mday ∧ r.tm_mday < 2 ^ 31) ∧
  (-2 ^ 31 ≤ r.tm_mon ∧ r.tm_mon < 2 ^ 31) ∧ (-2 ^ 31 ≤ r.tm_year ∧ r.tm_year < 2 ^ 31)

instance (r : rtc_time) : Decidable (int_fields r) := by
  unfold int_fields; infer_instance

/-- Binary64 values among the numerators over `2^53`: at most 53 significant bits
times a power of two. -/
def Rep (r : Int) : Prop := ∃ M t : Nat, M ≤ 2 ^ 53 ∧ r.natAbs = M * 2 ^ t

/-- The value a call returned, if it returned. -/
def Outcome.value? {α : Type} : Outcome α → Option α
  | .ret v _ => some v
  | .exited _ _ => none

/-- Marker events (calls), as opposed to printed lines. -/
def Event.is_call : Event → Bool
  | .call_check_rtc_jumped _ _ _ => true
  | .call_update_system_time => true
  | .call_clock_settime _ => true
  | _ => false

/-- The status `read_rtc` returns under `env`, when it returns: the error number
of a failed `open`, else `0`. -/
def status_of (env : RtcEnv) : Int :=
  match env.open_result with
  | .failed e => e.val
  | .ok => 0

/-- Loop invariant: `st.result` is the status returned by `read_rtc` call `k`
(which met `env`), and if that status is `0` then `current_rtc_time` holds the
time stored by that very call. -/
def records_read (k : Nat) (env : RtcEnv) (st : MainState) : Prop :=
  st.result = status_of env ∧
    (st.result = 0 → ∃ t, env.ioctl_result = .ok t ∧
      st.current_rtc_time = { val := t, writer := some k })

/-! ## Example inputs -/

/-- Monday 2024-01-01 00:00:00. -/
def ex_t0 : rtc_time := ⟨0, 0, 0, 1, 0, 124, 1, 0, 0⟩

/-- The same day at 00:01:01, i.e. `ex_t0` plus 61 s. -/
def ex_t61 : rtc_time := ⟨1, 1, 0, 1, 0, 124, 1, 0, 0⟩

/-- The same day at 01:00:00, i.e. `ex_t0` plus 3600 s. -/
def ex_t3600 : rtc_time := ⟨0, 0, 1, 1, 0, 124, 1, 0, 0⟩

/-- The same day at 01:01:00, i.e. `ex_t3600` plus 60 s. -/
def ex_t3660 : rtc_time := ⟨0, 1, 1, 1, 0, 124, 1, 0, 0⟩

/-- 1970-01-01 00:00:00. -/
def ex_epoch : rtc_time := ⟨0, 0, 0, 1, 0, 70, 4, 0, 0⟩

/-- A sample 562949953421317 s after `ex_epoch` (13 November of year 17841143). -/
def ex_far : rtc_time := ⟨37, 28, 21, 13, 10, 17839243, 0, 0, 0⟩

/-- 31 December 23:59:30 of the year `1900 + 2^31 - 1`, the last year `tm_year`
can hold. -/
def ex_last : rtc_time := ⟨30, 59, 23, 31, 11, 2147483647, 0, 0, 0⟩

/-- The time 60 s after `ex_last`, written as 00:00:30 on day 1 of month 12 of the
same `tm_year`: 1 January of the following year. -/
def ex_next : rtc_time := ⟨30, 0, 0, 1, 12, 2147483647, 0, 0, 0⟩

/-- `EACCES`. -/
def ex_eacces : Errno := ⟨13, by decide⟩

/-- `EIO`. -/
def ex_eio : Errno := ⟨5, by decide⟩

/-- A device that opens but whose time query fails. -/
def ex_broken : RtcEnv := ⟨.ok, .failed ex_eio⟩

/-- A device that opens and reports `t`. -/
def ex_dev (t : rtc_time) : RtcEnv := ⟨.ok, .ok t⟩

/-- A device that cannot be opened (permission denied). -/
def ex_denied : RtcEnv := ⟨.failed ex_eacces, .failed ex_eacces⟩

/-- An iteration whose `read_rtc` meets `dev`; the clock moved by 60 s during the
sleep, and a resynchronisation would find the RTC at `ex_t3600` and succeed. -/
def ex_cycle (dev : RtcEnv) : CycleEnv := ⟨60, dev, ⟨ex_dev ex_t3600, none⟩⟩

/-- A state of `main` in which the last read succeeded and stored `ex_t0`. -/
def ex_state : MainState := ⟨⟨ex_t0, none⟩, ⟨ex_t0, some 0⟩, 0, 0, 1704067200⟩

/-- A state of `main` in which the last read failed with `EACCES`. -/
def ex_state_failed : MainState := ⟨⟨ex_t0, none⟩, ⟨ex_t0, some 0⟩, 0, 13, 1704067200⟩

/-- Startup contents of the locals. -/
def ex_startup : Startup := ⟨ex_epoch, ex_epoch, 0, 1704067200⟩

/-! ## Values returned by `timegm` -/

theorem TIMEGM_MIN_eq : TIMEGM_MIN = -67768040609740800 := by decide

theorem TIMEGM_MAX_eq : TIMEGM_MAX = 67768036191676799 := by decide

theorem timegm_range (t : tm) : TIMEGM_MIN ≤ timegm t ∧ timegm t ≤ TIMEGM_MAX := by
  unfold timegm
  by_cases h : TIMEGM_MIN ≤ epoch_seconds t ∧ epoch_seconds t ≤ TIMEGM_MAX
  · simp only [h, and_self, if_true]
  · simp only [h, if_false]
    rw [TIMEGM_MIN_eq, TIMEGM_MAX_eq]
    omega

theorem rtc_diff_fits_int64 (p c : rtc_time) :
    -2 ^ 63 < rtc_diff p c ∧ rtc_diff p c < 2 ^ 63 := by
  have h1 := timegm_range (rtc_to_tm p)
  have h2 := timegm_range (rtc_to_tm c)
  rw [TIMEGM_MIN_eq, TIMEGM_MAX_eq] at h1 h2
  unfold rtc_diff
  omega

theorem timegm_of_converts (r : rtc_time) (h : converts r) :
    timegm (rtc_to_tm r) = epoch_seconds (rtc_to_tm r) := by
  unfold converts at h
  unfold timegm
  simp only [h, and_self, if_true]

theorem rtc_diff_of_converts (p c : rtc_time) (hp : converts p) (hc : converts c) :
    rtc_diff p c = epoch_diff p c := by
  unfold rtc_diff epoch_diff
  rw [timegm_of_converts p hp, timegm_of_converts c hc]

/-! ## The detector in terms of `jump_condition` -/

theorem check_rtc_jumped_fst (p c : rtc_time) (E : Int) :
    (check_rtc_jumped p c E).1 = if jump_condition (rtc_diff p c) E then 1 else 0 := by
  unfold check_rtc_jumped rtc_diff
  by_cases h : jump_condition (timegm (rtc_to_tm c) - timegm (rtc_to_tm p)) E = true
  · simp [h]
  · simp [h]

theorem check_rtc_jumped_snd (p c : rtc_time) (E : Int) :
    (check_rtc_jumped p c E).2 =
      if jump_condition (rtc_diff p c) E then [Event.rtc_jumped (rtc_diff p c) E] else [] := by
  unfold check_rtc_jumped rtc_diff
  by_cases h : jump_condition (timegm (rtc_to_tm c) - timegm (rtc_to_tm p)) E = true
  · simp [h]
  · simp [h]

/-! ## Evaluations of the binary64 comparison at period 60 -/

theorem jump_condition_60_53 : jump_condition 53 60 = false := by decide!

theorem jump_condition_60_67 : jump_condition 67 60 = false := by decide!

theorem jump_condition_60_52 : jump_condition 52 60 = true := by decide!

theorem jump_condition_60_68 : jump_condition 68 60 = true := by decide!

theorem jump_condition_60_3600 : jump_condition 3600 60 = true := by decide!

theorem jump_condition_60_61 : jump_condition 61 60 = false := by decide!

theorem jump_condition_far_out :
    jump_condition 562949953421317 511772684928469 = false := by decide!

/-! ## Rounding: locating the dropped bits -/

theorem excess_bits_eq : ∀ (f a k : Nat), a < 2 ^ (53 + f) → a < 2 ^ (53 + k) →
    (0 < k → 2 ^ (52 + k) ≤ a) → excess_bits f a = k := by
  intro f
  induction f with
  | zero =>
    intro a k hf hk hlo
    simp only [excess_bits]
    by_contra hne
    have hk0 : 0 < k := Nat.pos_of_ne_zero (fun h => hne h.symm)
    have h1 := hlo hk0
    have h2 : (2:Nat) ^ 53 ≤ 2 ^ (52 + k) := Nat.pow_le_pow_right (by norm_num) (by omega)
    simp at hf
    omega
  | succ f ih =>
    intro a k hf hk hlo
    simp only [excess_bits]
    by_cases ha : a < 2 ^ 53
    · rw [if_pos ha]
      by_contra hne
      have hk0 : 0 < k := Nat.pos_of_ne_zero (fun h => hne h.symm)
      have h1 := hlo hk0
      have h2 : (2:Nat) ^ 53 ≤ 2 ^ (52 + k) := Nat.pow_le_pow_right (by norm_num) (by omega)
      omega
    · rw [if_neg ha]
      have hk0 : 0 < k := by
        by_contra h0
        have : k = 0 := by omega
        subst this
        simp at hk
        omega
      obtain ⟨j, rfl⟩ : ∃ j, k = j + 1 := ⟨k - 1, by omega⟩
      have e1 : (2:Nat) ^ (53 + (f + 1)) = 2 * 2 ^ (53 + f) := by
        rw [← Nat.add_assoc, Nat.pow_succ]; ring
      have e2 : (2:Nat) ^ (53 + (j + 1)) = 2 * 2 ^ (53 + j) := by
        rw [← Nat.add_assoc, Nat.pow_succ]; ring
      have e3 : (2:Nat) ^ (52 + (j + 1)) = 2 * 2 ^ (52 + j) := by
        rw [← Nat.add_assoc, Nat.pow_succ]; ring
      have h1 := hlo hk0
      rw [e1] at hf; rw [e2] at hk; rw [e3] at h1
      have := ih (a / 2) j (by omega) (by omega) (fun _ => by omega)
      omega

theorem exists_shift (a : Nat) :
    ∃ k, a < 2 ^ (53 + k) ∧ (0 < k → 2 ^ (52 + k) ≤ a) := by
  by_cases ha : a < 2 ^ 53
  · exact ⟨0, by simpa using ha, fun h => absurd h (by omega)⟩
  · have ha0 : a ≠ 0 := by
      intro h; subst h; simp at ha
    have h1 := Nat.pow_log_le_self 2 ha0
    have h2 := Nat.lt_pow_succ_log_self (by norm_num : 1 < 2) a
    have h3 : 53 ≤ Nat.log 2 a := by
      by_contra hc
      have : Nat.log 2 a + 1 ≤ 53 := by omega
      have := Nat.pow_le_pow_right (by norm_num : 0 < 2) this
      omega
    refine ⟨Nat.log 2 a - 52, ?_, fun _ => ?_⟩
    · have : 53 + (Nat.log 2 a - 52) = Nat.log 2 a + 1 := by omega
      rw [this]; exact h2
    · have : 52 + (Nat.log 2 a - 52) = Nat.log 2 a := by omega
      rw [this]; exact h1

theorem roundNat_eq (a k : Nat) (hk : a < 2 ^ (53 + k)) (hlo : 0 < k → 2 ^ (52 + k) ≤ a) :
    roundNat a =
      if 2 * (a % 2 ^ k) < 2 ^ k then a / 2 ^ k * 2 ^ k
      else if 2 * (a % 2 ^ k) = 2 ^ k then
        (if a / 2 ^ k % 2 = 0 then a / 2 ^ k else a / 2 ^ k + 1) * 2 ^ k
      else (a / 2 ^ k + 1) * 2 ^ k := by
  have hf : a < 2 ^ (53 + a) := by
    have h1 : a < 2 ^ a := Nat.lt_two_pow a
    have h2 : (2:Nat) ^ a ≤ 2 ^ (53 + a) := Nat.pow_le_pow_right (by norm_num) (by omega)
    omega
  unfold roundNat
  rw [excess_bits_eq a a k hf hk hlo]

theorem roundNat_cases (a k : Nat) (hk : a < 2 ^ (53 + k)) (hlo : 0 < k → 2 ^ (52 + k) ≤ a) :
    roundNat a = a / 2 ^ k * 2 ^ k ∨
      (0 < a % 2 ^ k ∧ roundNat a = (a / 2 ^ k + 1) * 2 ^ k) := by
  rw [roundNat_eq a k hk hlo]
  have hp : 0 < 2 ^ k := Nat.two_pow_pos k
  by_cases h1 : 2 * (a % 2 ^ k) < 2 ^ k
  · left; rw [if_pos h1]
  · rw [if_neg h1]
    have hr : 0 < a % 2 ^ k := by omega
    by_cases h2 : 2 * (a % 2 ^ k) = 2 ^ k
    · rw [if_pos h2]
      by_cases h3 : a / 2 ^ k % 2 = 0
      · left; rw [if_pos h3]
      · right; rw [if_neg h3]; exact ⟨hr, rfl⟩
    · right; rw [if_neg h2]; exact ⟨hr, rfl⟩

theorem pow_split (k t : Nat) (h : k ≤ t) : (2:Nat) ^ t = 2 ^ (t - k) * 2 ^ k := by
  rw [← Nat.pow_add]; congr 1; omega

/-! ## Rounding preserves order against representable values -/

theorem le_roundNat (m t a : Nat) (hm : m ≤ 2 ^ 53) (h : m * 2 ^ t ≤ a) :
    m * 2 ^ t ≤ roundNat a := by
  obtain ⟨k, hk, hlo⟩ := exists_shift a
  have hp : 0 < 2 ^ k := Nat.two_pow_pos k
  have hq : m * 2 ^ t ≤ a / 2 ^ k * 2 ^ k := by
    by_cases htk : k ≤ t
    · rw [pow_split k t htk, ← Nat.mul_assoc]
      apply Nat.mul_le_mul_right
      rw [Nat.le_div_iff_mul_le hp, Nat.mul_assoc, ← pow_split k t htk]
      exact h
    · have hk0 : 0 < k := by omega
      have h1 := hlo hk0
      have h2 : 2 ^ 52 ≤ a / 2 ^ k := by
        rw [Nat.le_div_iff_mul_le hp, ← Nat.pow_add]; exact h1
      have h3 : m * 2 ^ t ≤ 2 ^ 53 * 2 ^ t := Nat.mul_le_mul_right _ hm
      have h4 : (2:Nat) ^ 53 * 2 ^ t ≤ 2 ^ 52 * 2 ^ k := by
        rw [← Nat.pow_add, ← Nat.pow_add]
        exact Nat.pow_le_pow_right (by norm_num) (by omega)
      have h5 : 2 ^ 52 * 2 ^ k ≤ a / 2 ^ k * 2 ^ k := Nat.mul_le_mul_right _ h2
      omega
  rcases roundNat_cases a k hk hlo with h | ⟨_, h⟩
  · rw [h]; exact hq
  · rw [h]
    have : a / 2 ^ k * 2 ^ k ≤ (a / 2 ^ k + 1) * 2 ^ k :=
      Nat.mul_le_mul_right _ (Nat.le_succ _)
    omega

theorem roundNat_le (m t a : Nat) (hm : m ≤ 2 ^ 53) (h : a ≤ m * 2 ^ t) :
    roundNat a ≤ m * 2 ^ t := by
  obtain ⟨k, hk, hlo⟩ := exists_shift a
  have hp : 0 < 2 ^ k := Nat.two_pow_pos k
  have hdm := Nat.div_add_mod a (2 ^ k)
  rcases roundNat_cases a k hk hlo with h1 | ⟨hr, h1⟩
  · rw [h1]
    have : a / 2 ^ k * 2 ^ k ≤ a := Nat.div_mul_le_self a (2 ^ k)
    omega
  · rw [h1]
    by_cases htk : k ≤ t
    · rw [pow_split k t htk, ← Nat.mul_assoc]
      apply Nat.mul_le_mul_right
      rw [pow_split k t htk, ← Nat.mul_assoc] at h
      have h2 : a / 2 ^ k < m * 2 ^ (t - k) := by
        rw [Nat.div_lt_iff_lt_mul hp]
        have : 2 ^ k * (a / 2 ^ k) = a / 2 ^ k * 2 ^ k := Nat.mul_comm _ _
        by_contra hc
        have hc2 : m * 2 ^ (t - k) * 2 ^ k ≤ a := Nat.le_of_not_lt hc
        have h3 : a = m * 2 ^ (t - k) * 2 ^ k := Nat.le_antisymm h hc2
        have h4 : a % 2 ^ k = 0 := by rw [h3]; exact Nat.mul_mod_left _ _
        omega
      omega
    · exfalso
      have hk0 : 0 < k := by omega
      have h2 := hlo hk0
      have h3 : m * 2 ^ t ≤ 2 ^ 53 * 2 ^ t := Nat.mul_le_mul_right _ hm
      have h4 : (2:Nat) ^ 53 * 2 ^ t ≤ 2 ^ (52 + k) := by
        rw [← Nat.pow_add]
        exact Nat.pow_le_pow_right (by norm_num) (by omega)
      have h5 : 2 ^ 52 ≤ a / 2 ^ k := by
        rw [Nat.le_div_iff_mul_le hp, ← Nat.pow_add]; exact h2
      have h6 : 2 ^ 52 * 2 ^ k ≤ a / 2 ^ k * 2 ^ k := Nat.mul_le_mul_right _ h5
      rw [← Nat.pow_add] at h6
      have h7 : 2 ^ k * (a / 2 ^ k) = a / 2 ^ k * 2 ^ k := Nat.mul_comm _ _
      omega

theorem roundNat_exact (m t : Nat) (hm : m ≤ 2 ^ 53) : roundNat (m * 2 ^ t) = m * 2 ^ t :=
  Nat.le_antisymm (roundNat_le m t _ hm (Nat.le_refl _)) (le_roundNat m t _ hm (Nat.le_refl _))

theorem rep_mul_pow (m : Int) (t : Nat) (hm : m.natAbs ≤ 2 ^ 53) : Rep (m * 2 ^ t) := by
  refine ⟨m.natAbs, t, hm, ?_⟩
  rw [Int.natAbs_mul, Int.natAbs_pow]
  rfl

theorem roundNE_nonneg (n : Int) (h : 0 ≤ n) : roundNE n = ((roundNat n.natAbs : Nat) : Int) := by
  unfold roundNE
  rw [if_neg (by omega)]

theorem roundNE_neg (n : Int) (h : n < 0) : roundNE n = -((roundNat n.natAbs : Nat) : Int) := by
  unfold roundNE
  rw [if_pos h]

theorem le_roundNE (r n : Int) (hr : Rep r) (h : r ≤ n) : r ≤ roundNE n := by
  obtain ⟨M, t, hM, hrM⟩ := hr
  by_cases hn : 0 ≤ n
  · rw [roundNE_nonneg n hn]
    by_cases hr0 : 0 ≤ r
    · have h1 : M * 2 ^ t ≤ n.natAbs := by rw [← hrM]; omega
      have h2 := le_roundNat M t _ hM h1
      rw [← hrM] at h2
      omega
    · omega
  · rw [roundNE_neg n (by omega)]
    have h1 : n.natAbs ≤ M * 2 ^ t := by rw [← hrM]; omega
    have h2 := roundNat_le M t _ hM h1
    rw [← hrM] at h2
    omega

theorem roundNE_le (r n : Int) (hr : Rep r) (h : n ≤ r) : roundNE n ≤ r := by
  obtain ⟨M, t, hM, hrM⟩ := hr
  by_cases hn : 0 ≤ n
  · rw [roundNE_nonneg n hn]
    have h1 : n.natAbs ≤ M * 2 ^ t := by rw [← hrM]; omega
    have h2 := roundNat_le M t _ hM h1
    rw [← hrM] at h2
    omega
  · rw [roundNE_neg n (by omega)]
    by_cases hr0 : r < 0
    · have h1 : M * 2 ^ t ≤ n.natAbs := by rw [← hrM]; omega
      have h2 := le_roundNat M t _ hM h1
      rw [← hrM] at h2
      omega
    · omega

theorem roundNE_exact (r : Int) (hr : Rep r) : roundNE r = r :=
  le_antisymm (roundNE_le r r hr (le_refl _)) (le_roundNE r r hr (le_refl _))

theorem rep_grid (a : Int) (h : a.natAbs ≤ 2 ^ 53) : Rep (a * 2 ^ 49) := rep_mul_pow a 49 h

theorem rep_scale (a : Int) (h : a.natAbs ≤ 2 ^ 53) : Rep (a * SCALE) := rep_mul_pow a 53 h

theorem SCALE_pos : (0:Int) < SCALE := by unfold SCALE; norm_num

/-! ## Error of a product followed by `± 1`, and comparisons with converted integers -/

theorem round_shift_grid (x c : Int) (hx : x.natAbs ≤ 2 ^ 102 - 2 ^ 54)
    (hc : c = SCALE ∨ c = -SCALE) :
    x + c - 2 ^ 49 < roundNE (roundNE x + c) ∧ roundNE (roundNE x + c) ≤ x + c + 2 ^ 49 := by
  have hS : SCALE = 16 * 2 ^ 49 := by unfold SCALE; norm_num
  have h1 : x / 2 ^ 49 * 2 ^ 49 ≤ x := Int.ediv_mul_le x (by norm_num)
  have h2 : x < (x / 2 ^ 49 + 1) * 2 ^ 49 := Int.lt_ediv_add_one_mul_self x (by norm_num)
  have ha : (x / 2 ^ 49).natAbs + 17 ≤ 2 ^ 53 := by omega
  have hP1 := le_roundNE _ x (rep_grid (x / 2 ^ 49) (by omega)) h1
  have hP2 := roundNE_le _ x (rep_grid (x / 2 ^ 49 + 1) (by omega)) (le_of_lt h2)
  rcases hc with rfl | rfl
  · have e1 : (x / 2 ^ 49 + 16) * 2 ^ 49 ≤ roundNE x + SCALE := by linarith
    have e2 : roundNE x + SCALE ≤ (x / 2 ^ 49 + 1 + 16) * 2 ^ 49 := by linarith
    have hL1 := le_roundNE _ _ (rep_grid (x / 2 ^ 49 + 16) (by omega)) e1
    have hL2 := roundNE_le _ _ (rep_grid (x / 2 ^ 49 + 1 + 16) (by omega)) e2
    constructor <;> linarith
  · have e1 : (x / 2 ^ 49 - 16) * 2 ^ 49 ≤ roundNE x + -SCALE := by linarith
    have e2 : roundNE x + -SCALE ≤ (x / 2 ^ 49 + 1 - 16) * 2 ^ 49 := by linarith
    have hL1 := le_roundNE _ _ (rep_grid (x / 2 ^ 49 - 16) (by omega)) e1
    have hL2 := roundNE_le _ _ (rep_grid (x / 2 ^ 49 + 1 - 16) (by omega)) e2
    constructor <;> linarith

theorem roundNat_half (a k : Nat) (hk : a < 2 ^ (53 + k)) (hlo : 0 < k → 2 ^ (52 + k) ≤ a) :
    2 ^ k ∣ roundNat a ∧ 2 * roundNat a ≤ 2 * a + 2 ^ k ∧ 2 * a ≤ 2 * roundNat a + 2 ^ k := by
  rw [roundNat_eq a k hk hlo]
  have hdm := Nat.div_add_mod a (2 ^ k)
  have hc : 2 ^ k * (a / 2 ^ k) = a / 2 ^ k * 2 ^ k := Nat.mul_comm _ _
  have hs : (a / 2 ^ k + 1) * 2 ^ k = a / 2 ^ k * 2 ^ k + 2 ^ k := Nat.succ_mul _ _
  by_cases h1 : 2 * (a % 2 ^ k) < 2 ^ k
  · rw [if_pos h1]
    exact ⟨Nat.dvd_mul_left _ _, by omega, by omega⟩
  · rw [if_neg h1]
    by_cases h2 : 2 * (a % 2 ^ k) = 2 ^ k
    · rw [if_pos h2]
      by_cases h3 : a / 2 ^ k % 2 = 0
      · rw [if_pos h3]
        exact ⟨Nat.dvd_mul_left _ _, by omega, by omega⟩
      · rw [if_neg h3]
        exact ⟨Nat.dvd_mul_left _ _, by omega, by omega⟩
    · rw [if_neg h2]
      exact ⟨Nat.dvd_mul_left _ _, by omega, by omega⟩

theorem round_shift_half (x : Int) (h1 : 2 ^ 101 ≤ x) (h2 : x + 2 ^ 48 + 2 ^ 53 ≤ 2 ^ 102) :
    x + SCALE - 2 ^ 48 ≤ roundNE (roundNE x + SCALE) ∧
    roundNE (roundNE x + SCALE) ≤ x + SCALE + 2 ^ 48 := by
  have hS : SCALE = 16 * 2 ^ 49 := by unfold SCALE; norm_num
  have hx0 : 0 ≤ x := by omega
  obtain ⟨a, rfl⟩ := Int.eq_ofNat_of_zero_le hx0
  have ha1 : 2 ^ (52 + 49) ≤ a := by omega
  have ha2 : a < 2 ^ (53 + 49) := by omega
  obtain ⟨⟨j, hj⟩, e1, e2⟩ := roundNat_half a 49 ha2 (fun _ => ha1)
  rw [roundNE_nonneg _ hx0, Int.natAbs_ofNat, hj]
  have hj53 : j + 16 ≤ 2 ^ 53 := by
    have h3 : (a : Int) + 2 ^ 48 + 2 ^ 53 ≤ 2 ^ 102 := h2
    omega
  have hrep : Rep ((((j + 16 : Nat) : Int)) * 2 ^ 49) := rep_grid _ (by omega)
  have hval : ((2 ^ 49 * j : Nat) : Int) + SCALE = ((j + 16 : Nat) : Int) * 2 ^ 49 := by
    rw [hS]; push_cast; ring
  rw [hval, roundNE_exact _ hrep, ← hval, hS]
  rw [hj] at e1 e2
  constructor
  · have : (2 * (a : Int)) ≤ 2 * ((2 ^ 49 * j : Nat) : Int) + 2 ^ 49 := by exact_mod_cast e2
    omega
  · have : 2 * ((2 ^ 49 * j : Nat) : Int) ≤ 2 * (a : Int) + 2 ^ 49 := by exact_mod_cast e1
    omega

theorem double_lt_iff (d l L : Int) (hl : l.natAbs < 2 ^ 53)
    (h1 : (l - 1) * SCALE < L) (h2 : L ≤ l * SCALE) : int64_to_double d < L ↔ d < l := by
  have hS : (0:Int) < SCALE := by unfold SCALE; norm_num
  unfold int64_to_double
  constructor
  · intro h
    by_contra hc
    have h3 : l * SCALE ≤ d * SCALE := mul_le_mul_of_nonneg_right (by omega) (le_of_lt hS)
    have h4 := le_roundNE _ _ (rep_scale l (by omega)) h3
    omega
  · intro h
    have h3 : d * SCALE ≤ (l - 1) * SCALE := mul_le_mul_of_nonneg_right (by omega) (le_of_lt hS)
    have h4 := roundNE_le _ _ (rep_scale (l - 1) (by omega)) h3
    omega

theorem double_gt_iff (d u U : Int) (hu : u.natAbs < 2 ^ 53)
    (h1 : u * SCALE ≤ U) (h2 : U < (u + 1) * SCALE) : U < int64_to_double d ↔ u < d := by
  have hS : (0:Int) < SCALE := by unfold SCALE; norm_num
  unfold int64_to_double
  constructor
  · intro h
    by_contra hc
    have h3 : d * SCALE ≤ u * SCALE := mul_le_mul_of_nonneg_right (by omega) (le_of_lt hS)
    have h4 := roundNE_le _ _ (rep_scale u (by omega)) h3
    omega
  · intro h
    have h3 : (u + 1) * SCALE ≤ d * SCALE := mul_le_mul_of_nonneg_right (by omega) (le_of_lt hS)
    have h4 := le_roundNE _ _ (rep_scale (u + 1) (by omega)) h3
    omega

/-! ## The two thresholds for intervals below 511772684928469 -/

theorem roundNat_nine (m : Nat) (hm : 10 * m ≤ 2 ^ 49) :
    roundNat (m * (9 * 2 ^ 53 + 2)) = 9 * m * 2 ^ 53 := by
  obtain ⟨k, hk, hlo⟩ := exists_shift (m * (9 * 2 ^ 53 + 2))
  have hp : 0 < 2 ^ k := Nat.two_pow_pos k
  have hk49 : k ≤ 49 := by
    by_contra hc
    have h1 := hlo (by omega)
    have h2 : (2:Nat) ^ 102 ≤ 2 ^ (52 + k) := Nat.pow_le_pow_right (by norm_num) (by omega)
    omega
  have h9 : 9 * m < 2 ^ k := by
    rw [Nat.pow_add] at hk
    have h1 : 2 ^ 53 * (9 * m) < 2 ^ 53 * 2 ^ k := by omega
    exact Nat.lt_of_mul_lt_mul_left h1
  have hsplit := pow_split k 53 (by omega)
  have ha : m * (9 * 2 ^ 53 + 2) = 2 * m + 9 * m * 2 ^ (53 - k) * 2 ^ k := by
    rw [Nat.mul_assoc (9 * m), ← hsplit]; ring
  have hdiv : m * (9 * 2 ^ 53 + 2) / 2 ^ k = 9 * m * 2 ^ (53 - k) := by
    rw [ha, Nat.add_mul_div_right _ _ hp, Nat.div_eq_of_lt (by omega)]; simp
  have hmod : m * (9 * 2 ^ 53 + 2) % 2 ^ k = 2 * m := by
    rw [ha, Nat.add_mul_mod_self_right, Nat.mod_eq_of_lt (by omega)]
  rw [roundNat_eq _ k hk hlo, hmod, hdiv, if_pos (by omega), Nat.mul_assoc (9 * m), ← hsplit]

theorem int64_to_double_exact (E : Int) (h : E.natAbs ≤ 2 ^ 53) :
    int64_to_double E = E * SCALE :=
  roundNE_exact _ (rep_scale E h)

theorem dmul_int (E c : Int) (h : E.natAbs ≤ 2 ^ 53) :
    dmul (int64_to_double E) c = roundNE (E * c) := by
  unfold dmul
  rw [int64_to_double_exact E h]
  have e : E * SCALE * c = E * c * SCALE := by ring
  rw [e, Int.mul_ediv_cancel _ (ne_of_gt SCALE_pos)]

theorem lower_threshold_eq (E : Int) (h : E.natAbs ≤ 2 ^ 53) :
    dsub (dmul (int64_to_double E) D_0_9) D_1 = roundNE (roundNE (E * D_0_9) + -SCALE) := by
  rw [dmul_int E _ h]; rfl

theorem upper_threshold_eq (E : Int) (h : E.natAbs ≤ 2 ^ 53) :
    dadd (dmul (int64_to_double E) D_1_1) D_1 = roundNE (roundNE (E * D_1_1) + SCALE) := by
  rw [dmul_int E _ h]; rfl

theorem roundNE_nine (m : Int) (h0 : 0 ≤ m) (h : 10 * m ≤ 2 ^ 49) :
    roundNE (10 * m * D_0_9) = 9 * m * SCALE := by
  obtain ⟨M, rfl⟩ := Int.eq_ofNat_of_zero_le h0
  have e : (10 * (M : Int) * D_0_9) = ((M * (9 * 2 ^ 53 + 2) : Nat) : Int) := by
    unfold D_0_9; push_cast; ring
  rw [e, roundNE_nonneg _ (Int.ofNat_nonneg _), Int.natAbs_ofNat,
    roundNat_nine M (by exact_mod_cast h)]
  unfold SCALE; push_cast; ring

theorem lower_threshold_bounds (E : Int) (hE : E.natAbs ≤ 2 ^ 49) :
    ((9 * E - 1) / 10 - 1) * SCALE < dsub (dmul (int64_to_double E) D_0_9) D_1 ∧
    dsub (dmul (int64_to_double E) D_0_9) D_1 ≤ (9 * E - 1) / 10 * SCALE := by
  rw [lower_threshold_eq E (by omega)]
  obtain ⟨g1, g2⟩ := round_shift_grid (E * D_0_9) (-SCALE)
    (by unfold D_0_9; omega) (Or.inr rfl)
  have hx : E % 10 = 0 → roundNE (E * D_0_9) ≤ 9 * (E / 10) * SCALE := by
    intro h10
    by_cases h0 : 0 ≤ E
    · have e : E = 10 * (E / 10) := by omega
      rw [e, roundNE_nine (E / 10) (by omega) (by omega)]
      have : 10 * (E / 10) / 10 = E / 10 := by omega
      rw [this]
    · apply roundNE_le _ _ (rep_scale _ (by omega))
      unfold SCALE D_0_9; omega
  have h3 : E % 10 = 0 →
      roundNE (roundNE (E * D_0_9) + -SCALE) ≤ (9 * (E / 10) - 1) * SCALE := by
    intro h10
    have h2 : roundNE (E * D_0_9) + -SCALE ≤ (9 * (E / 10) - 1) * SCALE := by
      have := hx h10; linarith
    exact roundNE_le _ _ (rep_scale (9 * (E / 10) - 1) (by omega)) h2
  generalize roundNE (roundNE (E * D_0_9) + -SCALE) = L at g1 g2 h3 ⊢
  unfold SCALE D_0_9 at *
  constructor
  · omega
  · by_cases h10 : E % 10 = 0
    · have := h3 h10; omega
    · have hr : E % 10 = 1 ∨ E % 10 = 2 ∨ E % 10 = 3 ∨ E % 10 = 4 ∨ E % 10 = 5 ∨
          E % 10 = 6 ∨ E % 10 = 7 ∨ E % 10 = 8 ∨ E % 10 = 9 := by omega
      rcases hr with h | h | h | h | h | h | h | h | h <;> omega

theorem upper_threshold_lt (E : Int) (hE : E.natAbs < 511772684928469) :
    dadd (dmul (int64_to_double E) D_1_1) D_1 < ((11 * E + 10) / 10 + 1) * SCALE := by
  by_cases hcell : E.natAbs ≤ 511772684928463 ∧ E ≤ 2 ^ 48
  · rw [upper_threshold_eq E (by omega)]
    obtain ⟨_, g2⟩ := round_shift_grid (E * D_1_1) SCALE (by unfold D_1_1; omega) (Or.inl rfl)
    generalize roundNE (roundNE (E * D_1_1) + SCALE) = U at g2 ⊢
    unfold SCALE D_1_1 at *
    omega
  · by_cases hhalf : 2 ^ 48 < E ∧ E ≤ 511772684928464
    · rw [upper_threshold_eq E (by omega)]
      obtain ⟨_, g2⟩ := round_shift_half (E * D_1_1) (by unfold D_1_1; omega)
        (by unfold D_1_1; omega)
      generalize roundNE (roundNE (E * D_1_1) + SCALE) = U at g2 ⊢
      unfold SCALE D_1_1 at *
      omega
    · have hv : E = 511772684928465 ∨ E = 511772684928466 ∨ E = 511772684928467 ∨
          E = 511772684928468 ∨ E = -511772684928464 ∨ E = -511772684928465 ∨
          E = -511772684928466 ∨ E = -511772684928467 ∨ E = -511772684928468 := by omega
      rcases hv with rfl | rfl | rfl | rfl | rfl | rfl | rfl | rfl | rfl <;> decide!

theorem upper_threshold_ge (E : Int) (h0 : -10 ≤ E) (hE : E < 511772684928469) :
    (11 * E + 10) / 10 * SCALE ≤ dadd (dmul (int64_to_double E) D_1_1) D_1 := by
  by_cases h10 : E % 10 = 0
  · by_cases hneg : E = -10
    · subst hneg; decide!
    · rw [upper_threshold_eq E (by omega)]
      have h1 : 11 * (E / 10) * SCALE ≤ E * D_1_1 := by unfold SCALE D_1_1; omega
      have h2 := le_roundNE _ _ (rep_scale (11 * (E / 10)) (by omega)) h1
      have h3 : (11 * (E / 10) + 1) * SCALE ≤ roundNE (E * D_1_1) + SCALE := by linarith
      have h4 := le_roundNE _ _ (rep_scale (11 * (E / 10) + 1) (by omega)) h3
      have h5 : (11 * E + 10) / 10 = 11 * (E / 10) + 1 := by omega
      rw [h5]; exact h4
  · have hr : E % 10 = 1 ∨ E % 10 = 2 ∨ E % 10 = 3 ∨ E % 10 = 4 ∨ E % 10 = 5 ∨
        E % 10 = 6 ∨ E % 10 = 7 ∨ E % 10 = 8 ∨ E % 10 = 9 := by omega
    by_cases hcell : E ≤ 2 ^ 48
    · rw [upper_threshold_eq E (by omega)]
      obtain ⟨g1, _⟩ := round_shift_grid (E * D_1_1) SCALE (by unfold D_1_1; omega)
        (Or.inl rfl)
      generalize roundNE (roundNE (E * D_1_1) + SCALE) = U at g1 ⊢
      unfold SCALE D_1_1 at *
      rcases hr with h | h | h | h | h | h | h | h | h <;> omega
    · by_cases hhalf : E ≤ 511772684928464
      · rw [upper_threshold_eq E (by omega)]
        obtain ⟨g1, _⟩ := round_shift_half (E * D_1_1) (by unfold D_1_1; omega)
          (by unfold D_1_1; omega)
        generalize roundNE (roundNE (E * D_1_1) + SCALE) = U at g1 ⊢
        unfold SCALE D_1_1 at *
        rcases hr with h | h | h | h | h | h | h | h | h <;> omega
      · have hv : E = 511772684928465 ∨ E = 511772684928466 ∨ E = 511772684928467 ∨
            E = 511772684928468 := by omega
        rcases hv with rfl | rfl | rfl | rfl <;> decide!

theorem roundNat_scale_dvd (n : Nat) : 2 ^ 53 ∣ roundNat (n * 2 ^ 53) := by
  by_cases hn : n ≤ 2 ^ 53
  · rw [roundNat_exact n 53 hn]; exact Nat.dvd_mul_left _ _
  · obtain ⟨k, hk, hlo⟩ := exists_shift (n * 2 ^ 53)
    obtain ⟨hd, _, _⟩ := roundNat_half (n * 2 ^ 53) k hk hlo
    have hk53 : 53 ≤ k := by
      by_contra hc
      have h1 : (2:Nat) ^ (53 + k) ≤ 2 ^ 106 := Nat.pow_le_pow_right (by norm_num) (by omega)
      omega
    exact Nat.dvd_trans (Nat.pow_dvd_pow 2 hk53) hd

theorem int64_to_double_integral (E : Int) : ∃ m : Int, int64_to_double E = m * SCALE := by
  unfold int64_to_double
  by_cases h : 0 ≤ E
  · obtain ⟨n, rfl⟩ := Int.eq_ofNat_of_zero_le h
    have e : ((n : Int) * SCALE) = ((n * 2 ^ 53 : Nat) : Int) := by unfold SCALE; push_cast; ring
    rw [e, roundNE_nonneg _ (Int.ofNat_nonneg _), Int.natAbs_ofNat]
    obtain ⟨j, hj⟩ := roundNat_scale_dvd n
    refine ⟨j, ?_⟩
    rw [hj]; unfold SCALE; push_cast; ring
  · obtain ⟨n, hn⟩ : ∃ n : Nat, E = -(n : Int) := ⟨E.natAbs, by omega⟩
    subst hn
    by_cases hz : n = 0
    · subst hz; exact ⟨0, by decide⟩
    · have e : (-(n : Int) * SCALE) = -((n * 2 ^ 53 : Nat) : Int) := by
        unfold SCALE; push_cast; ring
      have hneg : -((n * 2 ^ 53 : Nat) : Int) < 0 := by
        have : 0 < n * 2 ^ 53 := Nat.mul_pos (Nat.pos_of_ne_zero hz) (Nat.two_pow_pos 53)
        omega
      rw [e, roundNE_neg _ hneg, Int.natAbs_neg, Int.natAbs_ofNat]
      obtain ⟨j, hj⟩ := roundNat_scale_dvd n
      refine ⟨-(j : Int), ?_⟩
      rw [hj]; unfold SCALE; push_cast; ring

theorem thresholds_cross (m : Int) (hm : m ≤ -2 ^ 20) :
    roundNE (roundNE (m * D_1_1) + SCALE) < roundNE (roundNE (m * D_0_9) + -SCALE) := by
  obtain ⟨M, hM⟩ : ∃ M : Nat, m = -(M : Int) := ⟨m.natAbs, by omega⟩
  subst hM
  have hM20 : 2 ^ 20 ≤ M := by omega
  have hM0 : M ≠ 0 := by omega
  have h1 := Nat.pow_log_le_self 2 hM0
  have h2 := Nat.lt_pow_succ_log_self (by norm_num : 1 < 2) M
  have h20 : 20 ≤ Nat.log 2 M := by
    by_contra hc
    have h3 : Nat.log 2 M + 1 ≤ 20 := by omega
    have h4 := Nat.pow_le_pow_right (by norm_num : 0 < 2) h3
    omega
  obtain ⟨t, ht⟩ : ∃ t, Nat.log 2 M = t + 10 := ⟨Nat.log 2 M - 10, by omega⟩
  rw [ht] at h1 h2
  have e1 : (2:Nat) ^ (t + 10) = 1024 * 2 ^ t := by rw [Nat.pow_add]; ring
  have e2 : (2:Nat) ^ (t + 10 + 1) = 2048 * 2 ^ t := by rw [Nat.pow_add, Nat.pow_add]; ring
  rw [e1] at h1
  rw [e2] at h2
  have hg1 : 1 ≤ 2 ^ t := Nat.one_le_two_pow
  -- the grid `G = 2^(t+53)`
  have hG : ((2:Int) ^ (t + 53)) = 9007199254740992 * ((2 ^ t : Nat) : Int) := by
    push_cast; rw [pow_add]; ring
  generalize hgI : ((2 ^ t : Nat) : Int) = gI at hG
  have hgI1 : 1 ≤ gI := by rw [← hgI]; exact_mod_cast hg1
  have hMlo : 1024 * gI ≤ (M : Int) := by rw [← hgI]; exact_mod_cast h1
  have hMhi : (M : Int) < 2048 * gI := by rw [← hgI]; exact_mod_cast h2
  have hGpos : (0:Int) < 2 ^ (t + 53) := by rw [hG]; omega
  -- position of `M * 1.1` on the grid
  have ha1 : (M : Int) * D_1_1 / 2 ^ (t + 53) * 2 ^ (t + 53) ≤ (M : Int) * D_1_1 :=
    Int.ediv_mul_le _ (ne_of_gt hGpos)
  have ha2 : (M : Int) * D_1_1 < ((M : Int) * D_1_1 / 2 ^ (t + 53) + 1) * 2 ^ (t + 53) :=
    Int.lt_ediv_add_one_mul_self _ hGpos
  have ha0 : 0 ≤ (M : Int) * D_1_1 / 2 ^ (t + 53) :=
    Int.ediv_nonneg (by unfold D_1_1; omega) (le_of_lt hGpos)
  generalize ha : (M : Int) * D_1_1 / 2 ^ (t + 53) = a at ha0 ha1 ha2
  have ha12 : a < 4096 := by
    have h3 : a * 2 ^ (t + 53) < 4096 * 2 ^ (t + 53) := by
      have : (M : Int) * D_1_1 < 4096 * 2 ^ (t + 53) := by rw [hG]; unfold D_1_1; omega
      linarith
    exact lt_of_mul_lt_mul_right h3 (le_of_lt hGpos)
  have hra := rep_mul_pow (-a) (t + 53) (by omega)
  have hrb := rep_mul_pow (-a + 1) (t + 53) (by omega)
  have hrc := rep_mul_pow (-a + 2) (t + 53) (by omega)
  have hrd := rep_mul_pow (-a + 3) (t + 53) (by omega)
  have hS : SCALE = 9007199254740992 := rfl
  have hSG : SCALE ≤ 2 ^ (t + 53) := by rw [hG, hS]; omega
  -- upper threshold
  have p1 : -(M : Int) * D_1_1 ≤ -a * 2 ^ (t + 53) := by linarith
  have p2 := roundNE_le _ _ hra p1
  have p3 : roundNE (-(M : Int) * D_1_1) + SCALE ≤ (-a + 1) * 2 ^ (t + 53) := by linarith
  have p4 := roundNE_le _ _ hrb p3
  -- lower threshold
  have q0 : (M : Int) * D_0_9 + 4 * 2 ^ (t + 53) ≤ (M : Int) * D_1_1 := by
    rw [hG]; unfold D_0_9 D_1_1; omega
  have q1 : (-a + 3) * 2 ^ (t + 53) ≤ -(M : Int) * D_0_9 := by linarith
  have q2 := le_roundNE _ _ hrd q1
  have q3 : (-a + 2) * 2 ^ (t + 53) ≤ roundNE (-(M : Int) * D_0_9) + -SCALE := by linarith
  have q4 := le_roundNE _ _ hrc q3
  linarith
theorem jump_condition_far_negative (d E : Int) (hE : E ≤ -2 ^ 20) :
    jump_condition d E = true := by
  obtain ⟨m, hm⟩ := int64_to_double_integral E
  have hle : int64_to_double E ≤ -2 ^ 20 * SCALE := by
    unfold int64_to_double
    exact roundNE_le _ _ (rep_scale (-2 ^ 20) (by decide))
      (mul_le_mul_of_nonneg_right hE (le_of_lt SCALE_pos))
  have hm20 : m ≤ -2 ^ 20 := by
    rw [hm] at hle
    exact le_of_mul_le_mul_right hle SCALE_pos
  have hmul : ∀ c : Int, dmul (int64_to_double E) c = roundNE (m * c) := by
    intro c
    unfold dmul
    have e : m * SCALE * c = m * c * SCALE := by ring
    rw [hm, e, Int.mul_ediv_cancel _ (ne_of_gt SCALE_pos)]
  have hcross := thresholds_cross m hm20
  have hl : dsub (dmul (int64_to_double E) D_0_9) D_1
      = roundNE (roundNE (m * D_0_9) + -SCALE) := by rw [hmul]; rfl
  have hu : dadd (dmul (int64_to_double E) D_1_1) D_1
      = roundNE (roundNE (m * D_1_1) + SCALE) := by rw [hmul]; rfl
  unfold jump_condition
  rw [Bool.or_eq_true, decide_eq_true_iff, decide_eq_true_iff, hl, hu]
  rcases lt_or_le (int64_to_double d) (roundNE (roundNE (m * D_0_9) + -SCALE)) with h | h
  · exact Or.inl h
  · exact Or.inr (lt_of_lt_of_le hcross h)

theorem jump_condition_iff_near (d E : Int) (hE : E.natAbs < 511772684928469) :
    jump_condition d E = true ↔ (10 * d < 9 * E - 10 ∨ 10 * d > 11 * E + 10) := by
  obtain ⟨a1, a2⟩ := lower_threshold_bounds E (by omega)
  have b2 := upper_threshold_lt E hE
  have hlt := double_lt_iff d _ _ (by omega) a1 a2
  unfold jump_condition
  rw [Bool.or_eq_true, decide_eq_true_iff, decide_eq_true_iff, hlt, gt_iff_lt]
  by_cases hB : -10 ≤ E
  · rw [double_gt_iff d _ _ (by omega) (upper_threshold_ge E hB (by omega)) b2]
    omega
  · constructor
    · intro _; omega
    · intro _
      by_cases hd : d < (9 * E - 1) / 10
      · exact Or.inl hd
      · right
        have h3 : ((11 * E + 10) / 10 + 1) * SCALE ≤ d * SCALE :=
          mul_le_mul_of_nonneg_right (by omega) (le_of_lt SCALE_pos)
        have h4 := le_roundNE _ _ (rep_scale ((11 * E + 10) / 10 + 1) (by omega)) h3
        have h5 : int64_to_double d = roundNE (d * SCALE) := rfl
        rw [h5]
        linarith

theorem jump_condition_iff (d E : Int) (hE : E < 511772684928469) :
    jump_condition d E = true ↔ (10 * d < 9 * E - 10 ∨ 10 * d > 11 * E + 10) := by
  by_cases hn : E.natAbs < 511772684928469
  · exact jump_condition_iff_near d E hn
  · rw [jump_condition_far_negative d E (by omega)]
    constructor
    · intro _; omega
    · intro _; rfl

theorem in_band_iff (d E : Int) :
    in_band d E ↔ (9 * E - 10 ≤ 10 * d ∧ 10 * d ≤ 11 * E + 10) := by
  unfold in_band
  constructor
  · rintro ⟨h1, h2⟩
    constructor
    · have : ((9 * E - 10 : Int) : ℚ) ≤ ((10 * d : Int) : ℚ) := by push_cast; linarith
      exact_mod_cast this
    · have : ((10 * d : Int) : ℚ) ≤ ((11 * E + 10 : Int) : ℚ) := by push_cast; linarith
      exact_mod_cast this
  · rintro ⟨h1, h2⟩
    have h1q : ((9 * E - 10 : Int) : ℚ) ≤ ((10 * d : Int) : ℚ) := by exact_mod_cast h1
    have h2q : ((10 * d : Int) : ℚ) ≤ ((11 * E + 10 : Int) : ℚ) := by exact_mod_cast h2
    push_cast at h1q h2q
    constructor <;> linarith

/-! ## The band in terms of the difference the code computes -/

theorem check_rtc_jumped_band_of_rtc_diff (p c : rtc_time) (E : Int)
    (hE : E < 511772684928469) :
    (check_rtc_jumped p c E).1 =
      if 9 * E - 10 ≤ 10 * rtc_diff p c ∧ 10 * rtc_diff p c ≤ 11 * E + 10 then 0 else 1 := by
  rw [check_rtc_jumped_fst]
  have h := jump_condition_iff (rtc_diff p c) E hE
  by_cases hb : 9 * E - 10 ≤ 10 * rtc_diff p c ∧ 10 * rtc_diff p c ≤ 11 * E + 10
  · have : ¬ jump_condition (rtc_diff p c) E = true := by rw [h]; omega
    rw [if_neg this, if_pos hb]
  · have : jump_condition (rtc_diff p c) E = true := by rw [h]; omega
    rw [if_pos this, if_neg hb]

/-! ## One loop iteration, case by case -/

theorem main_cycle_open_failed (k : Nat) (env : CycleEnv) (st : MainState) (e : Errno)
    (h : env.read.open_result = .failed e) :
    main_cycle k env st =
      .ret { previous_rtc_time := st.current_rtc_time
             current_rtc_time := st.current_rtc_time
             previous_result := st.result
             result := e.val
             sys_time := st.sys_time + env.clock_advance } [.err_open e.val, .skipping] := by
  have hne : e.val ≠ 0 := ne_of_gt e.pos
  simp [main_cycle, read_rtc, h, hne]

theorem main_cycle_ioctl_failed (k : Nat) (env : CycleEnv) (st : MainState) (e : Errno)
    (h1 : env.read.open_result = .ok) (h2 : env.read.ioctl_result = .failed e) :
    main_cycle k env st = .exited 1 [.err_ioctl e.val] := by
  simp [main_cycle, read_rtc, h1, h2]

theorem main_cycle_prev_failed (k : Nat) (env : CycleEnv) (st : MainState) (t : rtc_time)
    (h1 : env.read.open_result = .ok) (h2 : env.read.ioctl_result = .ok t)
    (h3 : st.result ≠ 0) :
    main_cycle k env st =
      .ret { previous_rtc_time := st.current_rtc_time
             current_rtc_time := { val := t, writer := some k }
             previous_result := st.result
             result := 0
             sys_time := st.sys_time + env.clock_advance } [.skipping] := by
  simp [main_cycle, read_rtc, h1, h2, h3]

theorem main_cycle_checked_log (k : Nat) (env : CycleEnv) (st : MainState) (t : rtc_time)
    (h1 : env.read.open_result = .ok) (h2 : env.read.ioctl_result = .ok t)
    (h3 : st.result = 0) :
    (main_cycle k env st).log =
      [Event.call_check_rtc_jumped st.current_rtc_time { val := t, writer := some k }
          RTC_CHECK_PERIOD_SEC]
      ++ (check_rtc_jumped st.current_rtc_time.val t RTC_CHECK_PERIOD_SEC).2
      ++ (if (check_rtc_jumped st.current_rtc_time.val t RTC_CHECK_PERIOD_SEC).1 ≠ 0 then
            Event.call_update_system_time
              :: (update_system_time env.sync (st.sys_time + env.clock_advance)).log
          else []) := by
  by_cases hj : (check_rtc_jumped st.current_rtc_time.val t RTC_CHECK_PERIOD_SEC).1 = 0
  · simp [main_cycle, read_rtc, h1, h2, h3, hj, Outcome.log]
  · cases hu : update_system_time env.sync (st.sys_time + env.clock_advance) with
    | ret v l => simp [main_cycle, read_rtc, h1, h2, h3, hj, hu, Outcome.log]
    | exited c l => simp [main_cycle, read_rtc, h1, h2, h3, hj, hu, Outcome.log]

theorem main_cycle_checked_state (k : Nat) (env : CycleEnv) (st st1 : MainState)
    (t : rtc_time) (log : List Event)
    (h1 : env.read.open_result = .ok) (h2 : env.read.ioctl_result = .ok t)
    (h3 : st.result = 0) (h : main_cycle k env st = .ret st1 log) :
    st1.previous_rtc_time = st.current_rtc_time ∧
    st1.current_rtc_time = { val := t, writer := some k } ∧
    st1.previous_result = st.result ∧ st1.result = 0 := by
  by_cases hj : (check_rtc_jumped st.current_rtc_time.val t RTC_CHECK_PERIOD_SEC).1 = 0
  · simp [main_cycle, read_rtc, h1, h2, h3, hj] at h
    obtain ⟨rfl, _⟩ := h
    simp [h3]
  · cases hu : update_system_time env.sync (st.sys_time + env.clock_advance) with
    | ret v l =>
      simp [main_cycle, read_rtc, h1, h2, h3, hj, hu] at h
      obtain ⟨rfl, _⟩ := h
      simp [h3]
    | exited c l =>
      simp [main_cycle, read_rtc, h1, h2, h3, hj, hu] at h

theorem wrap64_id (x : Int) (h0 : -2 ^ 63 ≤ x) (h1 : x < 2 ^ 63) : wrap64 x = x := by
  unfold wrap64
  omega

theorem update_system_time_refused (t : rtc_time) (se : Option Errno) (S : Int)
    (h : wrap64 (S + 2) ≥ timegm (rtc_to_tm t)) :
    update_system_time ⟨⟨.ok, .ok t⟩, se⟩ S =
      .ret S [.changing_time (S % 2 ^ 64) (timegm (rtc_to_tm t) % 2 ^ 64), .not_updating] := by
  simp only [update_system_time]
  rw [if_pos h]

theorem update_system_time_set (t : rtc_time) (S : Int)
    (h : ¬ wrap64 (S + 2) ≥ timegm (rtc_to_tm t)) :
    update_system_time ⟨⟨.ok, .ok t⟩, none⟩ S =
      .ret (timegm (rtc_to_tm t))
        [.changing_time (S % 2 ^ 64) (timegm (rtc_to_tm t) % 2 ^ 64),
         .call_clock_settime (timegm (rtc_to_tm t))] := by
  simp only [update_system_time]
  rw [if_neg h]

theorem update_system_time_set_failed (t : rtc_time) (e : Errno) (S : Int)
    (h : ¬ wrap64 (S + 2) ≥ timegm (rtc_to_tm t)) :
    update_system_time ⟨⟨.ok, .ok t⟩, some e⟩ S =
      .ret S
        [.changing_time (S % 2 ^ 64) (timegm (rtc_to_tm t) % 2 ^ 64),
         .call_clock_settime (timegm (rtc_to_tm t)), .err_settime e.val] := by
  simp only [update_system_time]
  rw [if_neg h]

theorem update_system_time_log_no_main_call (env : SyncEnv) (S : Int) :
    Event.call_update_system_time ∉ (update_system_time env S).log ∧
    ∀ p c E, Event.call_check_rtc_jumped p c E ∉ (update_system_time env S).log := by
  obtain ⟨⟨o, i⟩, se⟩ := env
  cases o with
  | failed e => simp [update_system_time, Outcome.log]
  | ok =>
    cases i with
    | failed e => simp [update_system_time, Outcome.log]
    | ok t =>
      by_cases h : wrap64 (S + 2) ≥ timegm (rtc_to_tm t)
      · rw [update_system_time_refused t se S h]; simp [Outcome.log]
      · cases se with
        | none => rw [update_system_time_set t S h]; simp [Outcome.log]
        | some err => rw [update_system_time_set_failed t err S h]; simp [Outcome.log]

theorem check_rtc_jumped_log_no_main_call (p c : rtc_time) (E : Int) :
    Event.call_update_system_time ∉ (check_rtc_jumped p c E).2 ∧
    ∀ p1 c1 E1, Event.call_check_rtc_jumped p1 c1 E1 ∉ (check_rtc_jumped p c E).2 := by
  rw [check_rtc_jumped_snd]
  by_cases h : jump_condition (rtc_diff p c) E = true
  · simp [h]
  · simp [h]

theorem main_loop_single (k : Nat) (env : CycleEnv) (st : MainState) :
    main_loop k [env] st = [main_cycle k env st] := by
  cases h : main_cycle k env st with
  | ret st1 log => simp [main_loop, h]
  | exited c log => simp [main_loop, h]

theorem main_loop_fail_ok_ok (k : Nat) (st : MainState) (env1 env2 env3 : CycleEnv)
    (e : Errno) (tA : rtc_time)
    (h1 : env1.read.open_result = .failed e)
    (h2o : env2.read.open_result = .ok) (h2 : env2.read.ioctl_result = .ok tA) :
    main_loop k [env1, env2, env3] st =
      [.ret { previous_rtc_time := st.current_rtc_time
              current_rtc_time := st.current_rtc_time
              previous_result := st.result
              result := e.val
              sys_time := st.sys_time + env1.clock_advance }
            [.err_open e.val, .skipping],
       .ret { previous_rtc_time := st.current_rtc_time
              current_rtc_time := { val := tA, writer := some (k + 1) }
              previous_result := e.val
              result := 0
              sys_time := st.sys_time + env1.clock_advance + env2.clock_advance }
            [.skipping],
       main_cycle (k + 2) env3
         { previous_rtc_time := st.current_rtc_time
           current_rtc_time := { val := tA, writer := some (k + 1) }
           previous_result := e.val
           result := 0
           sys_time := st.sys_time + env1.clock_advance + env2.clock_advance }] := by
  have hne : e.val ≠ 0 := ne_of_gt e.pos
  rw [main_loop, main_cycle_open_failed k env1 st e h1]
  simp only
  rw [main_loop, main_cycle_prev_failed (k + 1) env2 _ tA h2o h2 hne]
  simp only
  rw [main_loop_single]

/-! ## The loop invariant -/

theorem main_init_records (env0 : RtcEnv) (u : Startup) (st : MainState) (log : List Event)
    (h : main_init env0 u = .ret st log) : records_read 0 env0 st := by
  cases ho : env0.open_result with
  | failed e =>
    simp [main_init, read_rtc, ho] at h
    obtain ⟨rfl, _⟩ := h
    have hne : e.val ≠ 0 := ne_of_gt e.pos
    simp [records_read, status_of, ho, hne]
  | ok =>
    cases hi : env0.ioctl_result with
    | failed e => simp [main_init, read_rtc, ho, hi] at h
    | ok t =>
      simp [main_init, read_rtc, ho, hi] at h
      obtain ⟨rfl, _⟩ := h
      simp [records_read, status_of, ho, hi]

theorem main_cycle_records (k j : Nat) (rprev : RtcEnv) (env : CycleEnv) (st st1 : MainState)
    (log : List Event) (hinv : records_read j rprev st)
    (h : main_cycle k env st = .ret st1 log) :
    records_read k env.read st1 ∧ st1.previous_result = status_of rprev ∧
      st1.result = status_of env.read := by
  cases ho : env.read.open_result with
  | failed e =>
    rw [main_cycle_open_failed k env st e ho] at h
    simp at h
    obtain ⟨rfl, _⟩ := h
    have hne : e.val ≠ 0 := ne_of_gt e.pos
    simp [records_read, status_of, ho, hne, hinv.1]
  | ok =>
    cases hi : env.read.ioctl_result with
    | failed e =>
      rw [main_cycle_ioctl_failed k env st e ho hi] at h
      simp at h
    | ok t =>
      by_cases h3 : st.result = 0
      · obtain ⟨_, e2, e3, e4⟩ := main_cycle_checked_state k env st st1 t log ho hi h3 h
        refine ⟨⟨?_, fun _ => ⟨t, hi, e2⟩⟩, ?_, ?_⟩
        · rw [e4]; simp [status_of, ho]
        · rw [e3]; exact hinv.1
        · rw [e4]; simp [status_of, ho]
      · rw [main_cycle_prev_failed k env st t ho hi h3] at h
        simp at h
        obtain ⟨rfl, _⟩ := h
        refine ⟨?_, hinv.1, ?_⟩
        · simp [records_read, status_of, ho, hi]
        · simp [status_of, ho]

theorem main_cycle_check_args (k j : Nat) (rprev : RtcEnv) (env : CycleEnv) (st : MainState)
    (hinv : records_read j rprev st) (p c : Slot) (E : Int)
    (h : Event.call_check_rtc_jumped p c E ∈ (main_cycle k env st).log) :
    status_of rprev = 0 ∧ status_of env.read = 0 ∧
      rprev.ioctl_result = .ok p.val ∧ env.read.ioctl_result = .ok c.val ∧
      p.writer = some j ∧ c.writer = some k := by
  cases ho : env.read.open_result with
  | failed e =>
    rw [main_cycle_open_failed k env st e ho] at h
    simp [Outcome.log] at h
  | ok =>
    cases hi : env.read.ioctl_result with
    | failed e =>
      rw [main_cycle_ioctl_failed k env st e ho hi] at h
      simp [Outcome.log] at h
    | ok t =>
      by_cases h3 : st.result = 0
      · rw [main_cycle_checked_log k env st t ho hi h3] at h
        have hu := (update_system_time_log_no_main_call env.sync
          (st.sys_time + env.clock_advance)).2 p c E
        have hc := (check_rtc_jumped_log_no_main_call st.current_rtc_time.val t
          RTC_CHECK_PERIOD_SEC).2 p c E
        obtain ⟨t0, ht0, hcur⟩ := hinv.2 h3
        have hmem : p = st.current_rtc_time ∧ c = { val := t, writer := some k } := by
          by_cases hj : (check_rtc_jumped st.current_rtc_time.val t RTC_CHECK_PERIOD_SEC).1 = 0
          · simp [hj, hc] at h; exact ⟨h.1, h.2.1⟩
          · simp [hj, hc, hu] at h; exact ⟨h.1, h.2.1⟩
        obtain ⟨rfl, rfl⟩ := hmem
        refine ⟨?_, ?_, ?_, ?_, ?_, ?_⟩
        · rw [← hinv.1]; exact h3
        · simp [status_of, ho]
        · rw [hcur]; exact ht0
        · rfl
        · rw [hcur]
        · rfl
      · rw [main_cycle_prev_failed k env st t ho hi h3] at h
        simp [Outcome.log] at h

theorem main_loop_records : ∀ (envs : List CycleEnv) (k : Nat) (rprev : RtcEnv)
    (st : MainState), records_read k rprev st →
    ∀ (j : Nat) (o : Outcome MainState), (main_loop (k + 1) envs st)[j]? = some o →
      ∃ rp rc, (rprev :: envs.map (fun e => e.read))[j]? = some rp ∧
        (rprev :: envs.map (fun e => e.read))[j + 1]? = some rc ∧
        (∀ st1 log, o = .ret st1 log →
          st1.previous_result = status_of rp ∧ st1.result = status_of rc) ∧
        (∀ p c E, Event.call_check_rtc_jumped p c E ∈ o.log →
          status_of rp = 0 ∧ status_of rc = 0 ∧
          rp.ioctl_result = .ok p.val ∧ rc.ioctl_result = .ok c.val ∧
          p.writer = some (k + j) ∧ c.writer = some (k + j + 1)) := by
  intro envs
  induction envs with
  | nil => intro k rprev st _ j o h; simp [main_loop] at h
  | cons env rest ih =>
    intro k rprev st hinv j o h
    cases hc : main_cycle (k + 1) env st with
    | exited code log =>
      simp only [main_loop, hc] at h
      cases j with
      | zero =>
        simp at h
        subst h
        refine ⟨rprev, env.read, by simp, by simp, ?_, ?_⟩
        · intro st1 log1 h1; cases h1
        · intro p c E hm
          rw [← hc] at hm
          simpa using main_cycle_check_args (k + 1) k rprev env st hinv p c E hm
      | succ j => simp at h
    | ret st1 log =>
      simp only [main_loop, hc] at h
      obtain ⟨hinv1, hs1, hs2⟩ := main_cycle_records (k + 1) k rprev env st st1 log hinv hc
      cases j with
      | zero =>
        simp at h
        subst h
        refine ⟨rprev, env.read, by simp, by simp, ?_, ?_⟩
        · intro st2 log2 h2
          cases h2
          exact ⟨hs1, hs2⟩
        · intro p c E hm
          rw [← hc] at hm
          simpa using main_cycle_check_args (k + 1) k rprev env st hinv p c E hm
      | succ j =>
        simp at h
        obtain ⟨rp, rc, h1, h2, h3, h4⟩ := ih (k + 1) env.read st1 hinv1 j o h
        refine ⟨rp, rc, by simpa using h1, by simpa using h2, h3, ?_⟩
        intro p c E hm
        obtain ⟨a1, a2, a3, a4, a5, a6⟩ := h4 p c E hm
        refine ⟨a1, a2, a3, a4, ?_, ?_⟩
        · rw [a5]; congr 1; omega
        · rw [a6]; congr 1; omega

/-! ## The properties -/

/-- C2.  With the configured period of 60 s the band is closed: a pair of samples
53 s or 67 s apart is no jump (`check_rtc_jumped` returns 0), a pair 52 s or 68 s
apart is a jump (it returns 1).  In binary64, `60 * 0.9 - 1` is exactly 53 and
`60 * 1.1 + 1` exactly 67. -/
theorem band_edges_at_sixty (p c : rtc_time) :
    (rtc_diff p c = 53 → (check_rtc_jumped p c RTC_CHECK_PERIOD_SEC).1 = 0) ∧
    (rtc_diff p c = 67 → (check_rtc_jumped p c RTC_CHECK_PERIOD_SEC).1 = 0) ∧
    (rtc_diff p c = 52 → (check_rtc_jumped p c RTC_CHECK_PERIOD_SEC).1 = 1) ∧
    (rtc_diff p c = 68 → (check_rtc_jumped p c RTC_CHECK_PERIOD_SEC).1 = 1) := by
  refine ⟨fun h => ?_, fun h => ?_, fun h => ?_, fun h => ?_⟩ <;>
    rw [check_rtc_jumped_fst, h, RTC_CHECK_PERIOD_SEC]
  · rw [jump_condition_60_53]; rfl
  · rw [jump_condition_60_67]; rfl
  · rw [jump_condition_60_52]; rfl
  · rw [jump_condition_60_68]; rfl

/-- Witness for C2: `ex_t0` and the samples 53, 67, 52 and 68 seconds later. -/
theorem band_edges_at_sixty_witness :
    (check_rtc_jumped ex_t0 ⟨53, 0, 0, 1, 0, 124, 1, 0, 0⟩ 60).1 = 0 ∧
    (check_rtc_jumped ex_t0 ⟨7, 1, 0, 1, 0, 124, 1, 0, 0⟩ 60).1 = 0 ∧
    (check_rtc_jumped ex_t0 ⟨52, 0, 0, 1, 0, 124, 1, 0, 0⟩ 60).1 = 1 ∧
    (check_rtc_jumped ex_t0 ⟨8, 1, 0, 1, 0, 124, 1, 0, 0⟩ 60).1 = 1 :=
  ⟨(band_edges_at_sixty _ _).1 (by decide),
   (band_edges_at_sixty _ _).2.1 (by decide),
   (band_edges_at_sixty _ _).2.2.1 (by decide),
   (band_edges_at_sixty _ _).2.2.2 (by decide)⟩

/-- C5 (amended).  In an iteration of the loop whose `read_rtc` returns, if the
status it returns is non-zero or the status carried over from the previous read is
non-zero, then the iteration returns to the loop (the process goes on), its log is
the log of the read followed by exactly one warning, and it contains no call of
`check_rtc_jumped`, `update_system_time` or `clock_settime`.  In particular two
consecutive iterations whose `open` fails log one warning each and call nothing.
Whenever the carried-over status is non-zero, none of these calls is made, whether
`read_rtc` returns or not. -/
theorem cycle_skips_after_failed_read (k : Nat) (env : CycleEnv) (st : MainState) :
    (∀ r cur log, read_rtc env.read k st.current_rtc_time = .ret (r, cur) log →
      (r ≠ 0 ∨ st.result ≠ 0) →
      main_cycle k env st =
        .ret { previous_rtc_time := st.current_rtc_time
               current_rtc_time := cur
               previous_result := st.result
               result := r
               sys_time := st.sys_time + env.clock_advance } (log ++ [.skipping]) ∧
      (∀ ev ∈ log ++ [Event.skipping], ev.is_call = false) ∧
      (log ++ [Event.skipping]).count .skipping = 1) ∧
    (∀ env2 e1 e2, env.read.open_result = .failed e1 → env2.read.open_result = .failed e2 →
      main_loop k [env, env2] st =
        [.ret { previous_rtc_time := st.current_rtc_time
                current_rtc_time := st.current_rtc_time
                previous_result := st.result
                result := e1.val
                sys_time := st.sys_time + env.clock_advance }
              [.err_open e1.val, .skipping],
         .ret { previous_rtc_time := st.current_rtc_time
                current_rtc_time := st.current_rtc_time
                previous_result := e1.val
                result := e2.val
                sys_time := st.sys_time + env.clock_advance + env2.clock_advance }
              [.err_open e2.val, .skipping]]) ∧
    (st.result ≠ 0 → ∀ ev ∈ (main_cycle k env st).log, ev.is_call = false) := by
  refine ⟨?_, ?_, ?_⟩
  · intro r cur log hread hfail
    cases ho : env.read.open_result with
    | failed e =>
      simp [read_rtc, ho] at hread
      obtain ⟨⟨rfl, rfl⟩, rfl⟩ := hread
      refine ⟨main_cycle_open_failed k _ st e ho, ?_, ?_⟩
      · simp [Event.is_call]
      · simp
    | ok =>
      cases hi : env.read.ioctl_result with
      | failed e => simp [read_rtc, ho, hi] at hread
      | ok t =>
        simp [read_rtc, ho, hi] at hread
        obtain ⟨⟨rfl, rfl⟩, rfl⟩ := hread
        have h3 : st.result ≠ 0 := by
          rcases hfail with h | h
          · exact absurd rfl h
          · exact h
        refine ⟨main_cycle_prev_failed k _ st t ho hi h3, ?_, ?_⟩
        · simp [Event.is_call]
        · simp
  · intro env2 e1 e2 h1 h2
    simp only [main_loop]
    rw [main_cycle_open_failed k env st e1 h1]
    simp only
    rw [main_cycle_open_failed (k + 1) env2 _ e2 h2]
  · intro h3
    cases ho : env.read.open_result with
    | failed e =>
      rw [main_cycle_open_failed k env st e ho]
      simp [Outcome.log, Event.is_call]
    | ok =>
      cases hi : env.read.ioctl_result with
      | failed e =>
        rw [main_cycle_ioctl_failed k env st e ho hi]
        simp [Outcome.log, Event.is_call]
      | ok t =>
        rw [main_cycle_prev_failed k env st t ho hi h3]
        simp [Outcome.log, Event.is_call]

/-- Witness for C5: the device cannot be opened. -/
theorem cycle_skips_after_failed_read_witness :
    main_cycle 1 (ex_cycle ex_denied) ex_state =
      .ret { previous_rtc_time := ex_state.current_rtc_time
             current_rtc_time := ex_state.current_rtc_time
             previous_result := ex_state.result
             result := 13
             sys_time := ex_state.sys_time + (ex_cycle ex_denied).clock_advance }
        ([.err_open 13] ++ [.skipping]) :=
  ((cycle_skips_after_failed_read 1 (ex_cycle ex_denied) ex_state).1 13
    ex_state.current_rtc_time [.err_open 13] rfl (Or.inl (by decide))).1

/-- C5 as stated fails when the carried-over status is non-zero and the time query
of the new read fails: `read_rtc` then terminates the process with exit code 1, no
warning is logged and the loop does not continue. -/
theorem cycle_exits_when_query_fails :
    ex_state_failed.result ≠ 0 ∧
    main_cycle 1 (ex_cycle ex_broken) ex_state_failed = .exited 1 [.err_ioctl 5] ∧
    Event.skipping ∉ (main_cycle 1 (ex_cycle ex_broken) ex_state_failed).log := by
  have h := main_cycle_ioctl_failed 1 (ex_cycle ex_broken) ex_state_failed ex_eio rfl rfl
  refine ⟨by decide, h, ?_⟩
  rw [h]
  simp [Outcome.log]

/-- C6.  In an iteration where the previous read and the new read both succeeded,
`check_rtc_jumped(previous, current, 60)` is called, and `update_system_time` is
called exactly once if it returns non-zero and not at all otherwise.  For samples
3600 s apart the synchronizer is called; for samples 61 s apart it is not. -/
theorem cycle_syncs_iff_jump (k : Nat) (env : CycleEnv) (st : MainState) (t : rtc_time)
    (hopen : env.read.open_result = .ok) (hread : env.read.ioctl_result = .ok t)
    (hprev : st.result = 0) :
    ((main_cycle k env st).log.count .call_update_system_time =
      if (check_rtc_jumped st.current_rtc_time.val t RTC_CHECK_PERIOD_SEC).1 ≠ 0 then 1 else 0) ∧
    (Event.call_check_rtc_jumped st.current_rtc_time ⟨t, some k⟩ RTC_CHECK_PERIOD_SEC
      ∈ (main_cycle k env st).log) ∧
    (rtc_diff st.current_rtc_time.val t = 3600 →
      Event.call_update_system_time ∈ (main_cycle k env st).log) ∧
    (rtc_diff st.current_rtc_time.val t = 61 →
      Event.call_update_system_time ∉ (main_cycle k env st).log) := by
  rw [main_cycle_checked_log k env st t hopen hread hprev]
  have hu := (update_system_time_log_no_main_call env.sync (st.sys_time + env.clock_advance)).1
  have hc := (check_rtc_jumped_log_no_main_call st.current_rtc_time.val t
    RTC_CHECK_PERIOD_SEC).1
  refine ⟨?_, ?_, ?_, ?_⟩
  · by_cases hj : (check_rtc_jumped st.current_rtc_time.val t RTC_CHECK_PERIOD_SEC).1 = 0
    · simp [hj, List.count_eq_zero_of_not_mem hc]
    · simp [hj, List.count_eq_zero_of_not_mem hc, List.count_eq_zero_of_not_mem hu]
  · simp
  · intro hd
    have hj : (check_rtc_jumped st.current_rtc_time.val t RTC_CHECK_PERIOD_SEC).1 = 1 := by
      rw [check_rtc_jumped_fst, hd, RTC_CHECK_PERIOD_SEC, jump_condition_60_3600]; rfl
    simp [hj]
  · intro hd
    have hj : (check_rtc_jumped st.current_rtc_time.val t RTC_CHECK_PERIOD_SEC).1 = 0 := by
      rw [check_rtc_jumped_fst, hd, RTC_CHECK_PERIOD_SEC, jump_condition_60_61]; rfl
    simp [hj, hc]

/-- Witness for C6: previous sample `ex_t0`, new sample one hour later. -/
theorem cycle_syncs_iff_jump_witness :
    Event.call_update_system_time ∈ (main_cycle 1 (ex_cycle (ex_dev ex_t3600)) ex_state).log :=
  (cycle_syncs_iff_jump 1 (ex_cycle (ex_dev ex_t3600)) ex_state ex_t3600 rfl rfl rfl).2.2.1
    (by decide)

/-- C8.  `read_rtc` has exactly three outcomes.  Device opened and time query
succeeded: it returns 0 and the caller's variable holds the hardware time.  Open
failed: it returns the (non-zero) error number, the caller's variable is
untouched and the process goes on.  Device opened but query failed: the process
exits with code 1.  Every environment is of one of these three forms. -/
theorem read_rtc_three_outcomes (tag : Nat) (out : Slot) :
    (∀ t, read_rtc ⟨.ok, .ok t⟩ tag out = .ret (0, ⟨t, some tag⟩) []) ∧
    (∀ e io, read_rtc ⟨.failed e, io⟩ tag out = .ret (e.val, out) [.err_open e.val]
      ∧ e.val ≠ 0) ∧
    (∀ e, read_rtc ⟨.ok, .failed e⟩ tag out = .exited 1 [.err_ioctl e.val]) ∧
    (∀ env : RtcEnv, (∃ t, env = ⟨.ok, .ok t⟩) ∨ (∃ e io, env = ⟨.failed e, io⟩)
      ∨ (∃ e, env = ⟨.ok, .failed e⟩)) := by
  refine ⟨fun t => rfl, fun e io => ⟨rfl, ne_of_gt e.pos⟩, fun e => rfl, ?_⟩
  rintro ⟨o, i⟩
  cases o with
  | ok =>
    cases i with
    | ok t => exact Or.inl ⟨t, rfl⟩
    | failed e => exact Or.inr (Or.inr ⟨e, rfl⟩)
  | failed e => exact Or.inr (Or.inl ⟨e, i, rfl⟩)

/-- C9.  Invariant of the sampling loop, for every sequence of read outcomes.  Let
read 0 be the initial read and read `j + 1` the read of iteration `j + 1`.  After
iteration `j + 1` the stored `previous_result` is the status returned by read `j`
and `result` the status returned by read `j + 1`.  Whenever `check_rtc_jumped` is
called in iteration `j + 1`, reads `j` and `j + 1` both returned 0, the first
argument is the time stored by read `j` and the second the time stored by read
`j + 1`: it is never called on a variable left unwritten or stale by a failed read. -/
theorem checks_compare_fresh_samples (env0 : RtcEnv) (u : Startup) (envs : List CycleEnv)
    (j : Nat) (o : Outcome MainState) (h : (main env0 u envs).2[j]? = some o) :
    ∃ rp rc, (env0 :: envs.map (fun e => e.read))[j]? = some rp ∧
      (env0 :: envs.map (fun e => e.read))[j + 1]? = some rc ∧
      (∀ st1 log, o = .ret st1 log →
        st1.previous_result = status_of rp ∧ st1.result = status_of rc) ∧
      (∀ p c E, Event.call_check_rtc_jumped p c E ∈ o.log →
        status_of rp = 0 ∧ status_of rc = 0 ∧
        rp.ioctl_result = .ok p.val ∧ rc.ioctl_result = .ok c.val ∧
        p.writer = some j ∧ c.writer = some (j + 1)) := by
  cases hi : main_init env0 u with
  | exited code log => simp [main, hi] at h
  | ret st log =>
    simp only [main, hi] at h
    have hinv := main_init_records env0 u st log hi
    obtain ⟨rp, rc, h1, h2, h3, h4⟩ := main_loop_records envs 0 env0 st hinv j o h
    refine ⟨rp, rc, h1, h2, h3, ?_⟩
    intro p c E hm
    simpa using h4 p c E hm

/-- Witness for C9: the initial read stores `ex_t0`, the first iteration reads
`ex_t61`. -/
theorem checks_compare_fresh_samples_witness :
    ∃ rp rc, (ex_dev ex_t0 :: [ex_cycle (ex_dev ex_t61)].map (fun e => e.read))[0]? = some rp ∧
      (ex_dev ex_t0 :: [ex_cycle (ex_dev ex_t61)].map (fun e => e.read))[0 + 1]? = some rc ∧
      (∀ st1 log, main_cycle 1 (ex_cycle (ex_dev ex_t61))
            ⟨⟨ex_epoch, none⟩, ⟨ex_t0, some 0⟩, 0, 0, 1704067200⟩ = .ret st1 log →
        st1.previous_result = status_of rp ∧ st1.result = status_of rc) ∧
      (∀ p c E, Event.call_check_rtc_jumped p c E ∈
          (main_cycle 1 (ex_cycle (ex_dev ex_t61))
            ⟨⟨ex_epoch, none⟩, ⟨ex_t0, some 0⟩, 0, 0, 1704067200⟩).log →
        status_of rp = 0 ∧ status_of rc = 0 ∧
        rp.ioctl_result = .ok p.val ∧ rc.ioctl_result = .ok c.val ∧
        p.writer = some 0 ∧ c.writer = some (0 + 1)) :=
  checks_compare_fresh_samples (ex_dev ex_t0) ex_startup [ex_cycle (ex_dev ex_t61)] 0
    (main_cycle 1 (ex_cycle (ex_dev ex_t61))
      ⟨⟨ex_epoch, none⟩, ⟨ex_t0, some 0⟩, 0, 0, 1704067200⟩)
    (by simp [main, main_init, read_rtc, ex_dev, ex_startup, main_loop_single])

/-- C10.  A read that fails in iteration N (`open` fails), followed by successful
reads in iterations N+1 and N+2: iterations N and N+1 only log the skip warning
(and the open error), no check and no resync; iteration N+2 calls
`check_rtc_jumped` on the samples of N+1 and N+2, and resyncs exactly if that
comparison reports a jump.  The logs of the three iterations do not depend on the
sample held from iteration N-1, so the elapsed RTC time between N-1 and N+1 is
never evaluated: if the samples of N+1 and N+2 show no jump, `update_system_time`
is not called in any of the three iterations. -/
theorem failed_read_skips_two_checks (k : Nat) (st : MainState)
    (env1 env2 env3 : CycleEnv) (e : Errno) (tA tB : rtc_time)
    (h1 : env1.read.open_result = .failed e)
    (h2o : env2.read.open_result = .ok) (h2 : env2.read.ioctl_result = .ok tA)
    (h3o : env3.read.open_result = .ok) (h3 : env3.read.ioctl_result = .ok tB) :
    (main_loop k [env1, env2, env3] st).map Outcome.log =
      [[.err_open e.val, .skipping],
       [.skipping],
       [Event.call_check_rtc_jumped ⟨tA, some (k + 1)⟩ ⟨tB, some (k + 2)⟩ RTC_CHECK_PERIOD_SEC]
        ++ (check_rtc_jumped tA tB RTC_CHECK_PERIOD_SEC).2
        ++ (if (check_rtc_jumped tA tB RTC_CHECK_PERIOD_SEC).1 ≠ 0 then
              Event.call_update_system_time
                :: (update_system_time env3.sync
                      (st.sys_time + env1.clock_advance + env2.clock_advance
                        + env3.clock_advance)).log
            else [])] ∧
    (∀ s : Slot,
      (main_loop k [env1, env2, env3] { st with current_rtc_time := s }).map Outcome.log
        = (main_loop k [env1, env2, env3] st).map Outcome.log) ∧
    ((check_rtc_jumped tA tB RTC_CHECK_PERIOD_SEC).1 = 0 →
      ∀ o ∈ main_loop k [env1, env2, env3] st,
        Event.call_update_system_time ∉ o.log) := by
  have key : ∀ st0 : MainState, st0.sys_time = st.sys_time →
      (main_loop k [env1, env2, env3] st0).map Outcome.log =
      [[.err_open e.val, .skipping],
       [.skipping],
       [Event.call_check_rtc_jumped ⟨tA, some (k + 1)⟩ ⟨tB, some (k + 2)⟩ RTC_CHECK_PERIOD_SEC]
        ++ (check_rtc_jumped tA tB RTC_CHECK_PERIOD_SEC).2
        ++ (if (check_rtc_jumped tA tB RTC_CHECK_PERIOD_SEC).1 ≠ 0 then
              Event.call_update_system_time
                :: (update_system_time env3.sync
                      (st.sys_time + env1.clock_advance + env2.clock_advance
                        + env3.clock_advance)).log
            else [])] := by
    intro st0 hs
    rw [main_loop_fail_ok_ok k st0 env1 env2 env3 e tA h1 h2o h2]
    simp only [List.map_cons, List.map_nil]
    rw [main_cycle_checked_log (k + 2) env3
      { previous_rtc_time := st0.current_rtc_time
        current_rtc_time := { val := tA, writer := some (k + 1) }
        previous_result := e.val
        result := 0
        sys_time := st0.sys_time + env1.clock_advance + env2.clock_advance } tB h3o h3 rfl]
    simp only [hs, Outcome.log]
  refine ⟨key st rfl, fun s => ?_, fun hj o ho => ?_⟩
  · rw [key st rfl, key { st with current_rtc_time := s } rfl]
  · have hm : o.log ∈ (main_loop k [env1, env2, env3] st).map Outcome.log :=
      List.mem_map_of_mem _ ho
    rw [key st rfl] at hm
    have hc := (check_rtc_jumped_log_no_main_call tA tB RTC_CHECK_PERIOD_SEC).1
    simp only [hj, ne_eq, not_true_eq_false, if_false, List.append_nil] at hm
    simp only [List.mem_cons, List.mem_singleton, List.not_mem_nil, or_false] at hm
    rcases hm with h | h | h
    · rw [h]; simp
    · rw [h]; simp
    · rw [h]; simp [hc]

/-- Witness for C10: the state holds `ex_t0`; then one failed read, then reads of
`ex_t3600` and `ex_t3660`.  The RTC moved by an hour over the failed read, and no
resync is triggered. -/
theorem failed_read_skips_two_checks_witness :
    (main_loop 1
        [ex_cycle ex_denied, ex_cycle (ex_dev ex_t3600), ex_cycle (ex_dev ex_t3660)]
        ex_state).map Outcome.log =
      [[.err_open 13, .skipping],
       [.skipping],
       [Event.call_check_rtc_jumped ⟨ex_t3600, some 2⟩ ⟨ex_t3660, some 3⟩ 60]
        ++ (check_rtc_jumped ex_t3600 ex_t3660 60).2
        ++ (if (check_rtc_jumped ex_t3600 ex_t3660 60).1 ≠ 0 then
              Event.call_update_system_time
                :: (update_system_time (ex_cycle (ex_dev ex_t3660)).sync
                      (1704067200 + 60 + 60 + 60)).log
            else [])] :=
  (failed_read_skips_two_checks 1 ex_state (ex_cycle ex_denied) (ex_cycle (ex_dev ex_t3600))
    (ex_cycle (ex_dev ex_t3660)) ex_eacces ex_t3600 ex_t3660 rfl rfl rfl rfl rfl).1

end RtcSync
